import Mathlib

/-!
Verification development for the Backseater virtual machine
(repository BackseatSafeSystem2k, files src/machine.rs and src/main.rs).

Shallow embedding: 32-bit words, addresses and 64-bit instructions are
natural numbers kept below their width by explicit `% 2 ^ 32` / `% 2 ^ 64`
truncation at every point where the Rust code relies on the fixed integer
width.  Memory is a byte function `Nat → Nat`, the register file a function
`Nat → Nat` over register indices `0..=255`, and the fallible operations
(instruction decoding, ROM loading) return `Option` / `Except`.

The crate modules `processor.rs`, `memory.rs` and `opcodes.rs` are not part
of the sources available here (only their callers in `main.rs` and their
extensive test-suite in `machine.rs` are), so the corresponding definitions
are modelled from the specification, as indicated by their doc comments.
-/

namespace Backseat

/-- Modelled from the spec: architectural register indices of the missing
`processor.rs` (`FLAGS`, `INSTRUCTION_POINTER`, `STACK_POINTER`,
`CYCLE_COUNT_HIGH`, `CYCLE_COUNT_LOW`).  The spec fixes a dense file of 256
registers with these five architecturally assigned indices but does not give
their numeric values; we place them at the top of the register file, above
every index the tests in `machine.rs` use for data (the largest is 0xEE). -/
def CYCLE_COUNT_HIGH : Nat := 251

/-- Modelled from the spec: low half of the 64-bit cycle counter register. -/
def CYCLE_COUNT_LOW : Nat := 252

/-- Modelled from the spec: the condition-flag register index. -/
def FLAGS : Nat := 253

/-- Modelled from the spec: the stack-pointer register index. -/
def STACK_POINTER : Nat := 254

/-- Modelled from the spec: the instruction-pointer register index. -/
def INSTRUCTION_POINTER : Nat := 255

/-- Modelled from the spec: `ENTRY_POINT` of the missing `processor.rs`:
the fixed address at which ROM code is placed and from which execution
begins.  The value is an exported architectural constant fixed by the
implementation; we choose it above the stack region. -/
def ENTRY_POINT : Nat := 0x2000

/-- Modelled from the spec: start of the bounded stack region; the stack
pointer initially equals `STACK_START` and the stack grows upward. -/
def STACK_START : Nat := 0x1000

/-- Modelled from the spec: size in bytes of the stack region
`[STACK_START, STACK_START + STACK_SIZE)`. -/
def STACK_SIZE : Nat := 0x1000

/-- Modelled from the spec: the tagged union of all instructions of the
missing `opcodes.rs`.  Variant names and operand field order are taken from
the uses in `main.rs` and `machine.rs`; register operands are 8-bit indices
and immediate/address operands are 32-bit words. -/
inductive Opcode where
  | MoveRegisterImmediate (register : Nat) (immediate : Nat)
  | MoveRegisterAddress (register : Nat) (address : Nat)
  | MoveTargetSource (target : Nat) (source : Nat)
  | MoveAddressRegister (address : Nat) (register : Nat)
  | MoveTargetPointer (target : Nat) (pointer : Nat)
  | MovePointerSource (pointer : Nat) (source : Nat)
  | AddTargetLhsRhs (target : Nat) (lhs : Nat) (rhs : Nat)
  | AddTargetSourceImmediate (target : Nat) (source : Nat) (immediate : Nat)
  | SubtractTargetLhsRhs (target : Nat) (lhs : Nat) (rhs : Nat)
  | SubtractTargetSourceImmediate (target : Nat) (source : Nat) (immediate : Nat)
  | SubtractWithCarryTargetLhsRhs (target : Nat) (lhs : Nat) (rhs : Nat)
  | MultiplyHighLowLhsRhs (high : Nat) (low : Nat) (lhs : Nat) (rhs : Nat)
  | DivmodTargetModLhsRhs (result : Nat) (remainder : Nat) (lhs : Nat) (rhs : Nat)
  | AndTargetLhsRhs (target : Nat) (lhs : Nat) (rhs : Nat)
  | OrTargetLhsRhs (target : Nat) (lhs : Nat) (rhs : Nat)
  | XorTargetLhsRhs (target : Nat) (lhs : Nat) (rhs : Nat)
  | NotTargetSource (target : Nat) (source : Nat)
  | LeftShiftTargetLhsRhs (target : Nat) (lhs : Nat) (rhs : Nat)
  | RightShiftTargetLhsRhs (target : Nat) (lhs : Nat) (rhs : Nat)
  | CompareTargetLhsRhs (target : Nat) (lhs : Nat) (rhs : Nat)
  | JumpAddress (address : Nat)
  | JumpRegister (register : Nat)
  | JumpAddressIfEqual (register : Nat) (address : Nat)
  | JumpAddressIfGreaterThan (register : Nat) (address : Nat)
  | JumpAddressIfLessThan (register : Nat) (address : Nat)
  | JumpAddressIfLessThanOrEqual (register : Nat) (address : Nat)
  | JumpAddressIfGreaterThanOrEqual (register : Nat) (address : Nat)
  | JumpAddressIfZero (address : Nat)
  | JumpAddressIfNotZero (address : Nat)
  | JumpAddressIfCarry (address : Nat)
  | JumpAddressIfNotCarry (address : Nat)
  | JumpAddressIfDivideByZero (address : Nat)
  | JumpAddressIfNotDivideByZero (address : Nat)
  | PushRegister (register : Nat)
  | PopRegister (register : Nat)
  | CallAddress (address : Nat)
  | Return
  | HaltAndCatchFire
  | PollTime (high : Nat) (low : Nat)
  | GetKeyState (target : Nat) (keycode : Nat)
  deriving DecidableEq, Repr

/-- Modelled from the spec: `Opcode::as_instruction` of the missing
`opcodes.rs`.  The high 16 bits of the 64-bit instruction are the opcode
tag (the spec fixes the tag set but not the numeric values; we number the
variants in the order the spec lists them); the remaining 48 bits pack the
operands left-to-right in declaration order, register fields 8 bits wide
and immediate/address fields 32 bits wide, unused low bits zero.  The
`% 256` / `% 2 ^ 32` truncations model the Rust field types `u8`/`u32`. -/
def encode : Opcode → Nat
  | .MoveRegisterImmediate r w => 0 * 2 ^ 48 + r % 256 * 2 ^ 40 + w % 2 ^ 32 * 2 ^ 8
  | .MoveRegisterAddress r w => 1 * 2 ^ 48 + r % 256 * 2 ^ 40 + w % 2 ^ 32 * 2 ^ 8
  | .MoveTargetSource a b => 2 * 2 ^ 48 + a % 256 * 2 ^ 40 + b % 256 * 2 ^ 32
  | .MoveAddressRegister w r => 3 * 2 ^ 48 + w % 2 ^ 32 * 2 ^ 16 + r % 256 * 2 ^ 8
  | .MoveTargetPointer a b => 4 * 2 ^ 48 + a % 256 * 2 ^ 40 + b % 256 * 2 ^ 32
  | .MovePointerSource a b => 5 * 2 ^ 48 + a % 256 * 2 ^ 40 + b % 256 * 2 ^ 32
  | .AddTargetLhsRhs a b c => 6 * 2 ^ 48 + a % 256 * 2 ^ 40 + b % 256 * 2 ^ 32 + c % 256 * 2 ^ 24
  | .AddTargetSourceImmediate a b w => 7 * 2 ^ 48 + a % 256 * 2 ^ 40 + b % 256 * 2 ^ 32 + w % 2 ^ 32
  | .SubtractTargetLhsRhs a b c => 8 * 2 ^ 48 + a % 256 * 2 ^ 40 + b % 256 * 2 ^ 32 + c % 256 * 2 ^ 24
  | .SubtractTargetSourceImmediate a b w => 9 * 2 ^ 48 + a % 256 * 2 ^ 40 + b % 256 * 2 ^ 32 + w % 2 ^ 32
  | .SubtractWithCarryTargetLhsRhs a b c => 10 * 2 ^ 48 + a % 256 * 2 ^ 40 + b % 256 * 2 ^ 32 + c % 256 * 2 ^ 24
  | .MultiplyHighLowLhsRhs a b c d => 11 * 2 ^ 48 + a % 256 * 2 ^ 40 + b % 256 * 2 ^ 32 + c % 256 * 2 ^ 24 + d % 256 * 2 ^ 16
  | .DivmodTargetModLhsRhs a b c d => 12 * 2 ^ 48 + a % 256 * 2 ^ 40 + b % 256 * 2 ^ 32 + c % 256 * 2 ^ 24 + d % 256 * 2 ^ 16
  | .AndTargetLhsRhs a b c => 13 * 2 ^ 48 + a % 256 * 2 ^ 40 + b % 256 * 2 ^ 32 + c % 256 * 2 ^ 24
  | .OrTargetLhsRhs a b c => 14 * 2 ^ 48 + a % 256 * 2 ^ 40 + b % 256 * 2 ^ 32 + c % 256 * 2 ^ 24
  | .XorTargetLhsRhs a b c => 15 * 2 ^ 48 + a % 256 * 2 ^ 40 + b % 256 * 2 ^ 32 + c % 256 * 2 ^ 24
  | .NotTargetSource a b => 16 * 2 ^ 48 + a % 256 * 2 ^ 40 + b % 256 * 2 ^ 32
  | .LeftShiftTargetLhsRhs a b c => 17 * 2 ^ 48 + a % 256 * 2 ^ 40 + b % 256 * 2 ^ 32 + c % 256 * 2 ^ 24
  | .RightShiftTargetLhsRhs a b c => 18 * 2 ^ 48 + a % 256 * 2 ^ 40 + b % 256 * 2 ^ 32 + c % 256 * 2 ^ 24
  | .CompareTargetLhsRhs a b c => 19 * 2 ^ 48 + a % 256 * 2 ^ 40 + b % 256 * 2 ^ 32 + c % 256 * 2 ^ 24
  | .JumpAddress w => 20 * 2 ^ 48 + w % 2 ^ 32 * 2 ^ 16
  | .JumpRegister r => 21 * 2 ^ 48 + r % 256 * 2 ^ 40
  | .JumpAddressIfEqual r w => 22 * 2 ^ 48 + r % 256 * 2 ^ 40 + w % 2 ^ 32 * 2 ^ 8
  | .JumpAddressIfGreaterThan r w => 23 * 2 ^ 48 + r % 256 * 2 ^ 40 + w % 2 ^ 32 * 2 ^ 8
  | .JumpAddressIfLessThan r w => 24 * 2 ^ 48 + r % 256 * 2 ^ 40 + w % 2 ^ 32 * 2 ^ 8
  | .JumpAddressIfLessThanOrEqual r w => 25 * 2 ^ 48 + r % 256 * 2 ^ 40 + w % 2 ^ 32 * 2 ^ 8
  | .JumpAddressIfGreaterThanOrEqual r w => 26 * 2 ^ 48 + r % 256 * 2 ^ 40 + w % 2 ^ 32 * 2 ^ 8
  | .JumpAddressIfZero w => 27 * 2 ^ 48 + w % 2 ^ 32 * 2 ^ 16
  | .JumpAddressIfNotZero w => 28 * 2 ^ 48 + w % 2 ^ 32 * 2 ^ 16
  | .JumpAddressIfCarry w => 29 * 2 ^ 48 + w % 2 ^ 32 * 2 ^ 16
  | .JumpAddressIfNotCarry w => 30 * 2 ^ 48 + w % 2 ^ 32 * 2 ^ 16
  | .JumpAddressIfDivideByZero w => 31 * 2 ^ 48 + w % 2 ^ 32 * 2 ^ 16
  | .JumpAddressIfNotDivideByZero w => 32 * 2 ^ 48 + w % 2 ^ 32 * 2 ^ 16
  | .PushRegister r => 33 * 2 ^ 48 + r % 256 * 2 ^ 40
  | .PopRegister r => 34 * 2 ^ 48 + r % 256 * 2 ^ 40
  | .CallAddress w => 35 * 2 ^ 48 + w % 2 ^ 32 * 2 ^ 16
  | .Return => 36 * 2 ^ 48
  | .HaltAndCatchFire => 37 * 2 ^ 48
  | .PollTime a b => 38 * 2 ^ 48 + a % 256 * 2 ^ 40 + b % 256 * 2 ^ 32
  | .GetKeyState a b => 39 * 2 ^ 48 + a % 256 * 2 ^ 40 + b % 256 * 2 ^ 32

set_option maxHeartbeats 2000000 in
set_option maxRecDepth 8000 in
/-- Modelled from the spec: `Opcode::try_from(Instruction)` of the missing
`opcodes.rs`.  Verifies the 16-bit tag, slices the operand fields
positionally, and fails (`none`, the `InvalidOpcode` error) when the tag is
unknown; unused operand bits must be zero so that the encode/decode round
trip required by the spec holds. -/
def decode (i : Nat) : Option Opcode :=
  match i / 2 ^ 48 with
  | 0 => if (i % 2 ^ 48) % 2 ^ 8 = 0 then some (.MoveRegisterImmediate ((i % 2 ^ 48) / 2 ^ 40) ((i % 2 ^ 48) / 2 ^ 8 % 2 ^ 32)) else none
  | 1 => if (i % 2 ^ 48) % 2 ^ 8 = 0 then some (.MoveRegisterAddress ((i % 2 ^ 48) / 2 ^ 40) ((i % 2 ^ 48) / 2 ^ 8 % 2 ^ 32)) else none
  | 2 => if (i % 2 ^ 48) % 2 ^ 32 = 0 then some (.MoveTargetSource ((i % 2 ^ 48) / 2 ^ 40) ((i % 2 ^ 48) / 2 ^ 32 % 256)) else none
  | 3 => if (i % 2 ^ 48) % 2 ^ 8 = 0 then some (.MoveAddressRegister ((i % 2 ^ 48) / 2 ^ 16 % 2 ^ 32) ((i % 2 ^ 48) / 2 ^ 8 % 256)) else none
  | 4 => if (i % 2 ^ 48) % 2 ^ 32 = 0 then some (.MoveTargetPointer ((i % 2 ^ 48) / 2 ^ 40) ((i % 2 ^ 48) / 2 ^ 32 % 256)) else none
  | 5 => if (i % 2 ^ 48) % 2 ^ 32 = 0 then some (.MovePointerSource ((i % 2 ^ 48) / 2 ^ 40) ((i % 2 ^ 48) / 2 ^ 32 % 256)) else none
  | 6 => if (i % 2 ^ 48) % 2 ^ 24 = 0 then some (.AddTargetLhsRhs ((i % 2 ^ 48) / 2 ^ 40) ((i % 2 ^ 48) / 2 ^ 32 % 256) ((i % 2 ^ 48) / 2 ^ 24 % 256)) else none
  | 7 => some (.AddTargetSourceImmediate ((i % 2 ^ 48) / 2 ^ 40) ((i % 2 ^ 48) / 2 ^ 32 % 256) ((i % 2 ^ 48) % 2 ^ 32))
  | 8 => if (i % 2 ^ 48) % 2 ^ 24 = 0 then some (.SubtractTargetLhsRhs ((i % 2 ^ 48) / 2 ^ 40) ((i % 2 ^ 48) / 2 ^ 32 % 256) ((i % 2 ^ 48) / 2 ^ 24 % 256)) else none
  | 9 => some (.SubtractTargetSourceImmediate ((i % 2 ^ 48) / 2 ^ 40) ((i % 2 ^ 48) / 2 ^ 32 % 256) ((i % 2 ^ 48) % 2 ^ 32))
  | 10 => if (i % 2 ^ 48) % 2 ^ 24 = 0 then some (.SubtractWithCarryTargetLhsRhs ((i % 2 ^ 48) / 2 ^ 40) ((i % 2 ^ 48) / 2 ^ 32 % 256) ((i % 2 ^ 48) / 2 ^ 24 % 256)) else none
  | 11 => if (i % 2 ^ 48) % 2 ^ 16 = 0 then some (.MultiplyHighLowLhsRhs ((i % 2 ^ 48) / 2 ^ 40) ((i % 2 ^ 48) / 2 ^ 32 % 256) ((i % 2 ^ 48) / 2 ^ 24 % 256) ((i % 2 ^ 48) / 2 ^ 16 % 256)) else none
  | 12 => if (i % 2 ^ 48) % 2 ^ 16 = 0 then some (.DivmodTargetModLhsRhs ((i % 2 ^ 48) / 2 ^ 40) ((i % 2 ^ 48) / 2 ^ 32 % 256) ((i % 2 ^ 48) / 2 ^ 24 % 256) ((i % 2 ^ 48) / 2 ^ 16 % 256)) else none
  | 13 => if (i % 2 ^ 48) % 2 ^ 24 = 0 then some (.AndTargetLhsRhs ((i % 2 ^ 48) / 2 ^ 40) ((i % 2 ^ 48) / 2 ^ 32 % 256) ((i % 2 ^ 48) / 2 ^ 24 % 256)) else none
  | 14 => if (i % 2 ^ 48) % 2 ^ 24 = 0 then some (.OrTargetLhsRhs ((i % 2 ^ 48) / 2 ^ 40) ((i % 2 ^ 48) / 2 ^ 32 % 256) ((i % 2 ^ 48) / 2 ^ 24 % 256)) else none
  | 15 => if (i % 2 ^ 48) % 2 ^ 24 = 0 then some (.XorTargetLhsRhs ((i % 2 ^ 48) / 2 ^ 40) ((i % 2 ^ 48) / 2 ^ 32 % 256) ((i % 2 ^ 48) / 2 ^ 24 % 256)) else none
  | 16 => if (i % 2 ^ 48) % 2 ^ 32 = 0 then some (.NotTargetSource ((i % 2 ^ 48) / 2 ^ 40) ((i % 2 ^ 48) / 2 ^ 32 % 256)) else none
  | 17 => if (i % 2 ^ 48) % 2 ^ 24 = 0 then some (.LeftShiftTargetLhsRhs ((i % 2 ^ 48) / 2 ^ 40) ((i % 2 ^ 48) / 2 ^ 32 % 256) ((i % 2 ^ 48) / 2 ^ 24 % 256)) else none
  | 18 => if (i % 2 ^ 48) % 2 ^ 24 = 0 then some (.RightShiftTargetLhsRhs ((i % 2 ^ 48) / 2 ^ 40) ((i % 2 ^ 48) / 2 ^ 32 % 256) ((i % 2 ^ 48) / 2 ^ 24 % 256)) else none
  | 19 => if (i % 2 ^ 48) % 2 ^ 24 = 0 then some (.CompareTargetLhsRhs ((i % 2 ^ 48) / 2 ^ 40) ((i % 2 ^ 48) / 2 ^ 32 % 256) ((i % 2 ^ 48) / 2 ^ 24 % 256)) else none
  | 20 => if (i % 2 ^ 48) % 2 ^ 16 = 0 then some (.JumpAddress ((i % 2 ^ 48) / 2 ^ 16)) else none
  | 21 => if (i % 2 ^ 48) % 2 ^ 40 = 0 then some (.JumpRegister ((i % 2 ^ 48) / 2 ^ 40)) else none
  | 22 => if (i % 2 ^ 48) % 2 ^ 8 = 0 then some (.JumpAddressIfEqual ((i % 2 ^ 48) / 2 ^ 40) ((i % 2 ^ 48) / 2 ^ 8 % 2 ^ 32)) else none
  | 23 => if (i % 2 ^ 48) % 2 ^ 8 = 0 then some (.JumpAddressIfGreaterThan ((i % 2 ^ 48) / 2 ^ 40) ((i % 2 ^ 48) / 2 ^ 8 % 2 ^ 32)) else none
  | 24 => if (i % 2 ^ 48) % 2 ^ 8 = 0 then some (.JumpAddressIfLessThan ((i % 2 ^ 48) / 2 ^ 40) ((i % 2 ^ 48) / 2 ^ 8 % 2 ^ 32)) else none
  | 25 => if (i % 2 ^ 48) % 2 ^ 8 = 0 then some (.JumpAddressIfLessThanOrEqual ((i % 2 ^ 48) / 2 ^ 40) ((i % 2 ^ 48) / 2 ^ 8 % 2 ^ 32)) else none
  | 26 => if (i % 2 ^ 48) % 2 ^ 8 = 0 then some (.JumpAddressIfGreaterThanOrEqual ((i % 2 ^ 48) / 2 ^ 40) ((i % 2 ^ 48) / 2 ^ 8 % 2 ^ 32)) else none
  | 27 => if (i % 2 ^ 48) % 2 ^ 16 = 0 then some (.JumpAddressIfZero ((i % 2 ^ 48) / 2 ^ 16)) else none
  | 28 => if (i % 2 ^ 48) % 2 ^ 16 = 0 then some (.JumpAddressIfNotZero ((i % 2 ^ 48) / 2 ^ 16)) else none
  | 29 => if (i % 2 ^ 48) % 2 ^ 16 = 0 then some (.JumpAddressIfCarry ((i % 2 ^ 48) / 2 ^ 16)) else none
  | 30 => if (i % 2 ^ 48) % 2 ^ 16 = 0 then some (.JumpAddressIfNotCarry ((i % 2 ^ 48) / 2 ^ 16)) else none
  | 31 => if (i % 2 ^ 48) % 2 ^ 16 = 0 then some (.JumpAddressIfDivideByZero ((i % 2 ^ 48) / 2 ^ 16)) else none
  | 32 => if (i % 2 ^ 48) % 2 ^ 16 = 0 then some (.JumpAddressIfNotDivideByZero ((i % 2 ^ 48) / 2 ^ 16)) else none
  | 33 => if (i % 2 ^ 48) % 2 ^ 40 = 0 then some (.PushRegister ((i % 2 ^ 48) / 2 ^ 40)) else none
  | 34 => if (i % 2 ^ 48) % 2 ^ 40 = 0 then some (.PopRegister ((i % 2 ^ 48) / 2 ^ 40)) else none
  | 35 => if (i % 2 ^ 48) % 2 ^ 16 = 0 then some (.CallAddress ((i % 2 ^ 48) / 2 ^ 16)) else none
  | 36 => if (i % 2 ^ 48) = 0 then some .Return else none
  | 37 => if (i % 2 ^ 48) = 0 then some .HaltAndCatchFire else none
  | 38 => if (i % 2 ^ 48) % 2 ^ 32 = 0 then some (.PollTime ((i % 2 ^ 48) / 2 ^ 40) ((i % 2 ^ 48) / 2 ^ 32 % 256)) else none
  | 39 => if (i % 2 ^ 48) % 2 ^ 32 = 0 then some (.GetKeyState ((i % 2 ^ 48) / 2 ^ 40) ((i % 2 ^ 48) / 2 ^ 32 % 256)) else none
  | _ => none
set_option maxHeartbeats 2000000 in
/-- Encoded instructions fit in 64 bits. -/
theorem encode_lt (op : Opcode) : encode op < 2 ^ 64 := by
  cases op <;> simp only [encode] <;> omega

set_option maxHeartbeats 4000000 in
set_option maxRecDepth 16000 in
/-- The decoder is a partial inverse of the encoder: any instruction word
that decodes successfully is reproduced bit-for-bit by re-encoding the
decoded opcode (spec section 8, property 1). -/
theorem encode_decode (i : Nat) (op : Opcode) (h : decode i = some op) : encode op = i := by
  unfold decode at h
  repeat' split at h
  all_goals
    first
      | exact Option.noConfusion h
      | (injection h with h
         subst h
         simp only [encode]
         omega)

/-- Byte-granular memory update; stored bytes are truncated to `% 256`
like the `u8` cells of the flat byte array of the missing `memory.rs`. -/
def setByte (mem : Nat → Nat) (a b : Nat) : Nat → Nat :=
  fun x => if x = a then b % 256 else mem x

/-- Modelled from the spec: `Memory::read_data` of the missing `memory.rs`:
big-endian read of 4 bytes at `a`. -/
def read_data (mem : Nat → Nat) (a : Nat) : Nat :=
  ((mem a * 256 + mem (a + 1)) * 256 + mem (a + 2)) * 256 + mem (a + 3)

/-- Modelled from the spec: the memory effect of `Memory::write_data`:
big-endian write of the 4 bytes of a Word. -/
def write_data_bytes (mem : Nat → Nat) (a v : Nat) : Nat → Nat :=
  setByte (setByte (setByte (setByte mem a (v / 2 ^ 24)) (a + 1) (v / 2 ^ 16)) (a + 2) (v / 2 ^ 8)) (a + 3) v

/-- Modelled from the spec: big-endian read of the 8 bytes of an encoded
Instruction, the first half of `Memory::read_opcode`. -/
def read_instruction (mem : Nat → Nat) (a : Nat) : Nat :=
  ((((((mem a * 256 + mem (a + 1)) * 256 + mem (a + 2)) * 256 + mem (a + 3)) * 256 + mem (a + 4)) * 256 + mem (a + 5)) * 256 + mem (a + 6)) * 256 + mem (a + 7)

/-- Modelled from the spec: big-endian write of the 8 bytes of a 64-bit
value, the memory effect of `Memory::write_opcode` after encoding. -/
def write_instruction_bytes (mem : Nat → Nat) (a v : Nat) : Nat → Nat :=
  setByte (setByte (setByte (setByte (setByte (setByte (setByte (setByte mem a (v / 2 ^ 56)) (a + 1) (v / 2 ^ 48)) (a + 2) (v / 2 ^ 40)) (a + 3) (v / 2 ^ 32)) (a + 4) (v / 2 ^ 24)) (a + 5) (v / 2 ^ 16)) (a + 6) (v / 2 ^ 8)) (a + 7) v

/-- Modelled from the spec: `Memory::read_opcode`: big-endian read of 8
bytes followed by decoding, failing with `InvalidOpcode` (`none`) if the
tag is unknown. -/
def read_opcode (mem : Nat → Nat) (a : Nat) : Option Opcode :=
  decode (read_instruction mem a)

/-- The machine state: memory, the 256-entry register file (indices are
`0..=255`; the flag register, instruction pointer, stack pointer and cycle
counter live inside it, see the constants above), and the two injected
peripheral collaborators (millisecond timer and keyboard predicate). -/
structure Machine where
  mem : Nat → Nat
  regs : Nat → Nat
  timeMs : Nat
  keyDown : Nat → Bool

/-- Modelled from the spec: `Memory::write_data` lifted to the machine. -/
def write_data (m : Machine) (a v : Nat) : Machine :=
  { m with mem := write_data_bytes m.mem a v }

/-- Modelled from the spec: `Memory::write_opcode` lifted to the machine:
encode, then big-endian write of the 8 instruction bytes. -/
def write_opcode (m : Machine) (a : Nat) (op : Opcode) : Machine :=
  { m with mem := write_instruction_bytes m.mem a (encode op) }

/-- Register write; the `% 2 ^ 32` truncation models the `u32` register
cells (`Word`) of the register file. -/
def setReg (m : Machine) (r v : Nat) : Machine :=
  { m with regs := fun x => if x = r then v % 2 ^ 32 else m.regs x }

/-- The three condition flags stored in the FLAGS register
(bit 0 = Zero, bit 1 = Carry, bit 2 = DivideByZero). -/
inductive Flag where
  | Zero
  | Carry
  | DivideByZero
  deriving DecidableEq, Repr

/-- Bit position of a flag inside the FLAGS register. -/
def Flag.bit : Flag → Nat
  | .Zero => 0
  | .Carry => 1
  | .DivideByZero => 2

/-- Modelled from the spec: `Processor::get_flag` of the missing
`processor.rs`: test the flag bit of the FLAGS register (the bit at
position `f.bit`, extracted arithmetically). -/
def get_flag (m : Machine) (f : Flag) : Bool :=
  m.regs FLAGS / 2 ^ f.bit % 2 = 1

/-- Modelled from the spec: `Processor::set_flag`: set or clear the flag
bit inside the FLAGS register (clear the bit, then add it back if `b`). -/
def set_flag (m : Machine) (f : Flag) (b : Bool) : Machine :=
  setReg m FLAGS
    (m.regs FLAGS - m.regs FLAGS / 2 ^ f.bit % 2 * 2 ^ f.bit + (if b then 2 ^ f.bit else 0))

/-- Instruction-pointer advancement by one 8-byte instruction, performed by
every non-jumping instruction. -/
def advanceIP (m : Machine) : Machine :=
  setReg m INSTRUCTION_POINTER (m.regs INSTRUCTION_POINTER + 8)

/-- Modelled from the spec: the 64-bit cycle counter, stored split across
the registers `CYCLE_COUNT_HIGH` and `CYCLE_COUNT_LOW`, increments by 1 on
every tick (section 3; the spec keeps it counting even for
`HaltAndCatchFire`). -/
def incCycle (m : Machine) : Machine :=
  setReg (setReg m CYCLE_COUNT_LOW ((m.regs CYCLE_COUNT_HIGH * 2 ^ 32 + m.regs CYCLE_COUNT_LOW + 1) % 2 ^ 32))
    CYCLE_COUNT_HIGH ((m.regs CYCLE_COUNT_HIGH * 2 ^ 32 + m.regs CYCLE_COUNT_LOW + 1) / 2 ^ 32 % 2 ^ 32)

/-- Modelled from the spec: the per-opcode execute step of the missing
`processor.rs` (spec sections 4.2 to 4.6), corroborated by the tests in
`machine.rs`.  Every arithmetic result is truncated to 32 bits by `setReg`;
flag updates follow the table of section 4.2; non-control-flow instructions
advance the instruction pointer by 8, jumps/call/return set it directly. -/
def executeOpcode (m : Machine) (op : Opcode) : Machine :=
  match op with
  | .MoveRegisterImmediate r w => advanceIP (setReg m r w)
  | .MoveRegisterAddress r a => advanceIP (setReg m r (read_data m.mem a))
  | .MoveTargetSource t s => advanceIP (setReg m t (m.regs s))
  | .MoveAddressRegister a r => advanceIP (write_data m a (m.regs r))
  | .MoveTargetPointer t p => advanceIP (setReg m t (read_data m.mem (m.regs p)))
  | .MovePointerSource p s => advanceIP (write_data m (m.regs p) (m.regs s))
  | .AddTargetLhsRhs t l r =>
      advanceIP (set_flag (set_flag (setReg m t (m.regs l + m.regs r))
        .Zero (decide ((m.regs l + m.regs r) % 2 ^ 32 = 0)))
        .Carry (decide (2 ^ 32 ≤ m.regs l + m.regs r)))
  | .AddTargetSourceImmediate t s w =>
      advanceIP (set_flag (set_flag (setReg m t (m.regs s + w))
        .Zero (decide ((m.regs s + w) % 2 ^ 32 = 0)))
        .Carry (decide (2 ^ 32 ≤ m.regs s + w)))
  | .SubtractTargetLhsRhs t l r =>
      advanceIP (set_flag (set_flag (setReg m t (m.regs l + 2 ^ 32 - m.regs r))
        .Zero (decide ((m.regs l + 2 ^ 32 - m.regs r) % 2 ^ 32 = 0)))
        .Carry (decide (m.regs l < m.regs r)))
  | .SubtractTargetSourceImmediate t s w =>
      advanceIP (set_flag (set_flag (setReg m t (m.regs s + 2 ^ 32 - w))
        .Zero (decide ((m.regs s + 2 ^ 32 - w) % 2 ^ 32 = 0)))
        .Carry (decide (m.regs s < w)))
  | .SubtractWithCarryTargetLhsRhs t l r =>
      advanceIP (set_flag (set_flag (setReg m t
        (m.regs l + 2 ^ 33 - m.regs r - (if get_flag m .Carry then 1 else 0)))
        .Zero (decide ((m.regs l + 2 ^ 33 - m.regs r - (if get_flag m .Carry then 1 else 0)) % 2 ^ 32 = 0)))
        .Carry (decide (m.regs l < m.regs r + (if get_flag m .Carry then 1 else 0))))
  | .MultiplyHighLowLhsRhs h l a b =>
      advanceIP (set_flag (set_flag (setReg (setReg m h (m.regs a * m.regs b / 2 ^ 32)) l (m.regs a * m.regs b))
        .Zero (decide (m.regs a * m.regs b % 2 ^ 32 = 0)))
        .Carry (decide (m.regs a * m.regs b / 2 ^ 32 ≠ 0)))
  | .DivmodTargetModLhsRhs res rem l r =>
      if m.regs r = 0 then
        advanceIP (set_flag (set_flag (setReg (setReg m res 0) rem (m.regs l))
          .Zero true) .DivideByZero true)
      else
        advanceIP (set_flag (set_flag (setReg (setReg m res (m.regs l / m.regs r)) rem (m.regs l % m.regs r))
          .Zero (decide (m.regs l / m.regs r = 0))) .DivideByZero false)
  | .AndTargetLhsRhs t l r =>
      advanceIP (set_flag (setReg m t (m.regs l &&& m.regs r))
        .Zero (decide (m.regs l &&& m.regs r = 0)))
  | .OrTargetLhsRhs t l r =>
      advanceIP (set_flag (setReg m t (m.regs l ||| m.regs r))
        .Zero (decide (m.regs l ||| m.regs r = 0)))
  | .XorTargetLhsRhs t l r =>
      advanceIP (set_flag (setReg m t (m.regs l ^^^ m.regs r))
        .Zero (decide (m.regs l ^^^ m.regs r = 0)))
  | .NotTargetSource t s =>
      advanceIP (set_flag (setReg m t (2 ^ 32 - 1 - m.regs s % 2 ^ 32))
        .Zero (decide (2 ^ 32 - 1 - m.regs s % 2 ^ 32 = 0)))
  | .LeftShiftTargetLhsRhs t l r =>
      if 32 ≤ m.regs r then
        advanceIP (set_flag (set_flag (setReg m t 0) .Zero true) .Carry (decide (m.regs l ≠ 0)))
      else
        advanceIP (set_flag (set_flag (setReg m t (m.regs l * 2 ^ m.regs r))
          .Zero (decide (m.regs l * 2 ^ m.regs r % 2 ^ 32 = 0)))
          .Carry (decide (2 ^ 32 ≤ m.regs l * 2 ^ m.regs r)))
  | .RightShiftTargetLhsRhs t l r =>
      if 32 ≤ m.regs r then
        advanceIP (set_flag (set_flag (setReg m t 0) .Zero true) .Carry (decide (m.regs l ≠ 0)))
      else
        advanceIP (set_flag (set_flag (setReg m t (m.regs l / 2 ^ m.regs r))
          .Zero (decide (m.regs l / 2 ^ m.regs r % 2 ^ 32 = 0)))
          .Carry (decide (m.regs l % 2 ^ m.regs r ≠ 0)))
  | .CompareTargetLhsRhs t l r =>
      advanceIP (set_flag (setReg m t
        (if m.regs r < m.regs l then 1 else if m.regs l = m.regs r then 0 else 2 ^ 32 - 1))
        .Zero (decide (m.regs l = m.regs r)))
  | .JumpAddress a => setReg m INSTRUCTION_POINTER a
  | .JumpRegister r => setReg m INSTRUCTION_POINTER (m.regs r)
  | .JumpAddressIfEqual r a =>
      if m.regs r = 0 then setReg m INSTRUCTION_POINTER a else advanceIP m
  | .JumpAddressIfGreaterThan r a =>
      if m.regs r = 1 then setReg m INSTRUCTION_POINTER a else advanceIP m
  | .JumpAddressIfLessThan r a =>
      if m.regs r = 2 ^ 32 - 1 then setReg m INSTRUCTION_POINTER a else advanceIP m
  | .JumpAddressIfLessThanOrEqual r a =>
      if m.regs r = 0 ∨ m.regs r = 2 ^ 32 - 1 then setReg m INSTRUCTION_POINTER a else advanceIP m
  | .JumpAddressIfGreaterThanOrEqual r a =>
      if m.regs r = 0 ∨ m.regs r = 1 then setReg m INSTRUCTION_POINTER a else advanceIP m
  | .JumpAddressIfZero a =>
      if get_flag m .Zero then setReg m INSTRUCTION_POINTER a else advanceIP m
  | .JumpAddressIfNotZero a =>
      if get_flag m .Zero then advanceIP m else setReg m INSTRUCTION_POINTER a
  | .JumpAddressIfCarry a =>
      if get_flag m .Carry then setReg m INSTRUCTION_POINTER a else advanceIP m
  | .JumpAddressIfNotCarry a =>
      if get_flag m .Carry then advanceIP m else setReg m INSTRUCTION_POINTER a
  | .JumpAddressIfDivideByZero a =>
      if get_flag m .DivideByZero then setReg m INSTRUCTION_POINTER a else advanceIP m
  | .JumpAddressIfNotDivideByZero a =>
      if get_flag m .DivideByZero then advanceIP m else setReg m INSTRUCTION_POINTER a
  | .PushRegister r =>
      advanceIP (setReg (write_data m (m.regs STACK_POINTER) (m.regs r))
        STACK_POINTER (m.regs STACK_POINTER + 4))
  | .PopRegister r =>
      advanceIP (setReg (setReg m STACK_POINTER (m.regs STACK_POINTER - 4))
        r (read_data m.mem (m.regs STACK_POINTER - 4)))
  | .CallAddress a =>
      setReg (setReg (write_data m (m.regs STACK_POINTER) (m.regs INSTRUCTION_POINTER + 8))
        STACK_POINTER (m.regs STACK_POINTER + 4)) INSTRUCTION_POINTER a
  | .Return =>
      setReg (setReg m STACK_POINTER (m.regs STACK_POINTER - 4))
        INSTRUCTION_POINTER (read_data m.mem (m.regs STACK_POINTER - 4))
  | .HaltAndCatchFire => m
  | .PollTime h l =>
      advanceIP (setReg (setReg m h (m.timeMs % 2 ^ 64 / 2 ^ 32)) l (m.timeMs % 2 ^ 32))
  | .GetKeyState t k =>
      advanceIP (setReg m t (if m.keyDown (m.regs k) then 1 else 0))

/-- `Machine::make_tick` (src/machine.rs line 21), delegating to the
`Processor::make_tick` of the missing `processor.rs`, which is modelled
from the spec, section 4.2: if the instruction at the instruction pointer
decodes to `HaltAndCatchFire`, do nothing except not advancing the
instruction pointer (the cycle counter still increments, section 3);
otherwise fetch, decode, execute and increment the cycle counter.  The
behaviour on a word that fails to decode is not fixed by the sources
available here; following the requirement that further ticks be no-ops,
the tick leaves the state unchanged in that case. -/
def make_tick (m : Machine) : Machine :=
  match read_opcode m.mem (m.regs INSTRUCTION_POINTER) with
  | none => m
  | some .HaltAndCatchFire => incCycle m
  | some op => incCycle (executeOpcode m op)

/-- `Machine::is_halted` (src/machine.rs lines 25-36): the machine is
reported halted exactly when the word at the instruction pointer decodes
successfully to `HaltAndCatchFire`. -/
def is_halted (m : Machine) : Bool :=
  read_opcode m.mem (m.regs INSTRUCTION_POINTER) == some .HaltAndCatchFire

/-- Modelled from the spec: `Machine::new`: zero-initialised memory and
registers, except that the instruction pointer starts at `ENTRY_POINT` and
the stack pointer at `STACK_START`; peripherals are injected (here: a zero
timer and a keyboard with no key pressed). -/
def Machine.new : Machine where
  mem := fun _ => 0
  regs := fun r =>
    if r = INSTRUCTION_POINTER then ENTRY_POINT
    else if r = STACK_POINTER then STACK_START
    else 0
  timeMs := 0
  keyDown := fun _ => false

/-- Iterated ticks. -/
def tickN : Nat → Machine → Machine
  | 0, m => m
  | n + 1, m => tickN n (make_tick m)

/-- Write a list of opcodes to consecutive instruction slots, as the test
helper `create_machine_with_opcodes` in src/machine.rs does. -/
def loadOpcodes : List Opcode → Nat → Machine → Machine
  | [], _, m => m
  | op :: rest, a, m => loadOpcodes rest (a + 8) (write_opcode m a op)

/-- A register index that is none of the five architecturally assigned
registers; it can be freely used for data. -/
def IsGeneralRegister (x : Nat) : Prop :=
  x ≠ FLAGS ∧ x ≠ INSTRUCTION_POINTER ∧ x ≠ STACK_POINTER ∧
    x ≠ CYCLE_COUNT_HIGH ∧ x ≠ CYCLE_COUNT_LOW

instance (x : Nat) : Decidable (IsGeneralRegister x) := by
  unfold IsGeneralRegister
  infer_instance

theorem regs_setReg_self (m : Machine) (r v : Nat) : (setReg m r v).regs r = v % 2 ^ 32 := by
  simp [setReg]

theorem regs_setReg_ne (m : Machine) (r v x : Nat) (h : x ≠ r) :
    (setReg m r v).regs x = m.regs x := by
  simp [setReg, h]

theorem mem_setReg (m : Machine) (r v : Nat) : (setReg m r v).mem = m.mem := rfl

theorem mem_set_flag (m : Machine) (f : Flag) (b : Bool) : (set_flag m f b).mem = m.mem := rfl

theorem mem_advanceIP (m : Machine) : (advanceIP m).mem = m.mem := rfl

theorem mem_incCycle (m : Machine) : (incCycle m).mem = m.mem := rfl

theorem regs_write_data (m : Machine) (a v : Nat) : (write_data m a v).regs = m.regs := rfl

theorem regs_write_opcode (m : Machine) (a : Nat) (op : Opcode) :
    (write_opcode m a op).regs = m.regs := rfl

theorem mem_write_data (m : Machine) (a v : Nat) :
    (write_data m a v).mem = write_data_bytes m.mem a v := rfl

theorem mem_write_opcode (m : Machine) (a : Nat) (op : Opcode) :
    (write_opcode m a op).mem = write_instruction_bytes m.mem a (encode op) := rfl

theorem regs_set_flag_ne (m : Machine) (f : Flag) (b : Bool) (x : Nat) (h : x ≠ FLAGS) :
    (set_flag m f b).regs x = m.regs x := by
  unfold set_flag
  exact regs_setReg_ne _ _ _ _ h

theorem regs_advanceIP_ne (m : Machine) (x : Nat) (h : x ≠ INSTRUCTION_POINTER) :
    (advanceIP m).regs x = m.regs x := by
  unfold advanceIP
  exact regs_setReg_ne _ _ _ _ h

theorem regs_incCycle_ne (m : Machine) (x : Nat) (h1 : x ≠ CYCLE_COUNT_HIGH)
    (h2 : x ≠ CYCLE_COUNT_LOW) : (incCycle m).regs x = m.regs x := by
  unfold incCycle
  rw [regs_setReg_ne _ _ _ _ h1, regs_setReg_ne _ _ _ _ h2]

theorem get_flag_set_flag (m : Machine) (f : Flag) (b : Bool) (g : Flag) :
    get_flag (set_flag m f b) g = if g = f then b else get_flag m g := by
  cases f <;> cases g <;> cases b <;>
    simp only [get_flag, set_flag, setReg, Flag.bit, reduceCtorEq, reduceIte,
      decide_eq_true_eq, decide_eq_decide, decide_eq_false_iff_not] <;>
    omega

theorem get_flag_setReg_ne (m : Machine) (r v : Nat) (f : Flag) (h : FLAGS ≠ r) :
    get_flag (setReg m r v) f = get_flag m f := by
  unfold get_flag
  rw [regs_setReg_ne _ _ _ _ h]

theorem get_flag_advanceIP (m : Machine) (f : Flag) :
    get_flag (advanceIP m) f = get_flag m f :=
  get_flag_setReg_ne _ _ _ _ (by decide)

theorem get_flag_incCycle (m : Machine) (f : Flag) :
    get_flag (incCycle m) f = get_flag m f := by
  unfold get_flag
  rw [regs_incCycle_ne _ _ (by decide) (by decide)]

theorem get_flag_write_data (m : Machine) (a v : Nat) (f : Flag) :
    get_flag (write_data m a v) f = get_flag m f := rfl

/-!  Pointwise byte views of the two multi-byte writes, and the
read-over-write lemmas derived from them. -/

theorem write_data_bytes_out (mem : Nat → Nat) (a v x : Nat) (h : x < a ∨ a + 4 ≤ x) :
    write_data_bytes mem a v x = mem x := by
  unfold write_data_bytes setByte
  rw [if_neg (by omega), if_neg (by omega), if_neg (by omega), if_neg (by omega)]

theorem write_instruction_bytes_out (mem : Nat → Nat) (a v x : Nat) (h : x < a ∨ a + 8 ≤ x) :
    write_instruction_bytes mem a v x = mem x := by
  unfold write_instruction_bytes setByte
  repeat rw [if_neg (show x ≠ _ from by omega)]

theorem write_data_bytes_at0 (mem : Nat → Nat) (a v : Nat) :
    write_data_bytes mem a v a = v / 2 ^ 24 % 256 := by
  unfold write_data_bytes setByte
  repeat rw [if_neg (show _ ≠ _ from by omega)]
  rw [if_pos rfl]

theorem write_data_bytes_at1 (mem : Nat → Nat) (a v : Nat) :
    write_data_bytes mem a v (a + 1) = v / 2 ^ 16 % 256 := by
  unfold write_data_bytes setByte
  repeat rw [if_neg (show _ ≠ _ from by omega)]
  rw [if_pos rfl]

theorem write_data_bytes_at2 (mem : Nat → Nat) (a v : Nat) :
    write_data_bytes mem a v (a + 2) = v / 2 ^ 8 % 256 := by
  unfold write_data_bytes setByte
  rw [if_neg (by omega), if_pos rfl]

theorem write_data_bytes_at3 (mem : Nat → Nat) (a v : Nat) :
    write_data_bytes mem a v (a + 3) = v % 256 := by
  unfold write_data_bytes setByte
  rw [if_pos rfl]

theorem read_data_write_data_bytes_self (mem : Nat → Nat) (a v : Nat) :
    read_data (write_data_bytes mem a v) a = v % 2 ^ 32 := by
  unfold read_data
  rw [write_data_bytes_at0, write_data_bytes_at1, write_data_bytes_at2, write_data_bytes_at3]
  omega

theorem read_data_write_data_bytes_out (mem : Nat → Nat) (a b v : Nat)
    (h : a + 4 ≤ b ∨ b + 4 ≤ a) :
    read_data (write_data_bytes mem b v) a = read_data mem a := by
  unfold read_data
  rw [write_data_bytes_out mem b v a (by omega), write_data_bytes_out mem b v (a + 1) (by omega),
    write_data_bytes_out mem b v (a + 2) (by omega), write_data_bytes_out mem b v (a + 3) (by omega)]

theorem read_data_write_instruction_bytes_out (mem : Nat → Nat) (a b v : Nat)
    (h : a + 4 ≤ b ∨ b + 8 ≤ a) :
    read_data (write_instruction_bytes mem b v) a = read_data mem a := by
  unfold read_data
  rw [write_instruction_bytes_out mem b v a (by omega),
    write_instruction_bytes_out mem b v (a + 1) (by omega),
    write_instruction_bytes_out mem b v (a + 2) (by omega),
    write_instruction_bytes_out mem b v (a + 3) (by omega)]

theorem read_instruction_write_instruction_bytes_out (mem : Nat → Nat) (a b v : Nat)
    (h : a + 8 ≤ b ∨ b + 8 ≤ a) :
    read_instruction (write_instruction_bytes mem b v) a = read_instruction mem a := by
  unfold read_instruction
  rw [write_instruction_bytes_out mem b v a (by omega),
    write_instruction_bytes_out mem b v (a + 1) (by omega),
    write_instruction_bytes_out mem b v (a + 2) (by omega),
    write_instruction_bytes_out mem b v (a + 3) (by omega),
    write_instruction_bytes_out mem b v (a + 4) (by omega),
    write_instruction_bytes_out mem b v (a + 5) (by omega),
    write_instruction_bytes_out mem b v (a + 6) (by omega),
    write_instruction_bytes_out mem b v (a + 7) (by omega)]

theorem read_instruction_write_data_bytes_out (mem : Nat → Nat) (a b v : Nat)
    (h : a + 8 ≤ b ∨ b + 4 ≤ a) :
    read_instruction (write_data_bytes mem b v) a = read_instruction mem a := by
  unfold read_instruction
  rw [write_data_bytes_out mem b v a (by omega), write_data_bytes_out mem b v (a + 1) (by omega),
    write_data_bytes_out mem b v (a + 2) (by omega), write_data_bytes_out mem b v (a + 3) (by omega),
    write_data_bytes_out mem b v (a + 4) (by omega), write_data_bytes_out mem b v (a + 5) (by omega),
    write_data_bytes_out mem b v (a + 6) (by omega), write_data_bytes_out mem b v (a + 7) (by omega)]

theorem read_instruction_write_instruction_bytes_self (mem : Nat → Nat) (a v : Nat) :
    read_instruction (write_instruction_bytes mem a v) a = v % 2 ^ 64 := by
  have h0 : write_instruction_bytes mem a v a = v / 2 ^ 56 % 256 := by
    unfold write_instruction_bytes setByte
    repeat rw [if_neg (show _ ≠ _ from by omega)]
    rw [if_pos rfl]
  have h1 : write_instruction_bytes mem a v (a + 1) = v / 2 ^ 48 % 256 := by
    unfold write_instruction_bytes setByte
    repeat rw [if_neg (show _ ≠ _ from by omega)]
    rw [if_pos rfl]
  have h2 : write_instruction_bytes mem a v (a + 2) = v / 2 ^ 40 % 256 := by
    unfold write_instruction_bytes setByte
    repeat rw [if_neg (show _ ≠ _ from by omega)]
    rw [if_pos rfl]
  have h3 : write_instruction_bytes mem a v (a + 3) = v / 2 ^ 32 % 256 := by
    unfold write_instruction_bytes setByte
    repeat rw [if_neg (show _ ≠ _ from by omega)]
    rw [if_pos rfl]
  have h4 : write_instruction_bytes mem a v (a + 4) = v / 2 ^ 24 % 256 := by
    unfold write_instruction_bytes setByte
    repeat rw [if_neg (show _ ≠ _ from by omega)]
    rw [if_pos rfl]
  have h5 : write_instruction_bytes mem a v (a + 5) = v / 2 ^ 16 % 256 := by
    unfold write_instruction_bytes setByte
    repeat rw [if_neg (show _ ≠ _ from by omega)]
    rw [if_pos rfl]
  have h6 : write_instruction_bytes mem a v (a + 6) = v / 2 ^ 8 % 256 := by
    unfold write_instruction_bytes setByte
    rw [if_neg (by omega), if_pos rfl]
  have h7 : write_instruction_bytes mem a v (a + 7) = v % 256 := by
    unfold write_instruction_bytes setByte
    rw [if_pos rfl]
  unfold read_instruction
  rw [h0, h1, h2, h3, h4, h5, h6, h7]
  omega

theorem read_instruction_write_opcode_self (m : Machine) (a : Nat) (op : Opcode) :
    read_instruction (write_opcode m a op).mem a = encode op := by
  rw [mem_write_opcode, read_instruction_write_instruction_bytes_self,
    Nat.mod_eq_of_lt (encode_lt op)]

/-!  Claim C2. -/

/-- A concrete machine whose 64-bit word at the instruction pointer has the
unregistered tag 0xFFFF and therefore fails to decode (`InvalidOpcode`). -/
def invalidOpcodeMachine : Machine :=
  { Machine.new with mem := write_instruction_bytes Machine.new.mem ENTRY_POINT (0xFFFF * 2 ^ 48) }

/-- C2, counterexample: a machine state in which the word at the
INSTRUCTION_POINTER fails to decode (`read_opcode` is `none`, the
`InvalidOpcode` case), yet the halted query `is_halted` returns `false`,
not `true` as the claim states: `Machine::is_halted` (src/machine.rs
lines 25-29) matches the decode result against `Ok(HaltAndCatchFire)`, so a
decoding failure is never reported as halted. -/
theorem c2_invalid_opcode_halted_counterexample :
    read_opcode invalidOpcodeMachine.mem (invalidOpcodeMachine.regs INSTRUCTION_POINTER) = none ∧
    is_halted invalidOpcodeMachine = false := by
  decide

/-- C2, amended: for every machine state in which the 64-bit word at the
INSTRUCTION_POINTER fails to decode (InvalidOpcode), the halted query
returns `false` — `is_halted` reports halted only for a word that decodes
to `HaltAndCatchFire` — and further ticks are no-ops (the tick leaves the
state unchanged). -/
theorem c2_invalid_opcode_not_halted (m : Machine)
    (h : read_opcode m.mem (m.regs INSTRUCTION_POINTER) = none) :
    is_halted m = false ∧ make_tick m = m := by
  constructor
  · unfold is_halted
    rw [h]
    rfl
  · unfold make_tick
    rw [h]

/-- C2, witness: the amended statement holds at the concrete machine with
an undecodable word at the entry point. -/
theorem c2_invalid_opcode_not_halted_witness :
    is_halted invalidOpcodeMachine = false ∧
    make_tick invalidOpcodeMachine = invalidOpcodeMachine :=
  c2_invalid_opcode_not_halted invalidOpcodeMachine (by decide)

/-!  Claim C5. -/

/-- C5: for every pair of register operands, `AddTargetLhsRhs` writes the
32-bit wrapping sum `lhs + rhs mod 2 ^ 32` to the target register, sets the
Zero flag iff that result equals 0, and sets the Carry flag iff the
unsigned addition overflows. -/
theorem c5_add_wrapping_sum_and_flags (m : Machine) (t l r : Nat)
    (hfetch : read_opcode m.mem (m.regs INSTRUCTION_POINTER) = some (.AddTargetLhsRhs t l r))
    (ht : IsGeneralRegister t) (hl : m.regs l < 2 ^ 32) (hr : m.regs r < 2 ^ 32) :
    (make_tick m).regs t = (m.regs l + m.regs r) % 2 ^ 32 ∧
    (get_flag (make_tick m) .Zero = true ↔ (m.regs l + m.regs r) % 2 ^ 32 = 0) ∧
    (get_flag (make_tick m) .Carry = true ↔ 2 ^ 32 ≤ m.regs l + m.regs r) := by
  obtain ⟨htF, htI, htS, htH, htL⟩ := ht
  have hm : make_tick m = incCycle (executeOpcode m (.AddTargetLhsRhs t l r)) := by
    unfold make_tick
    rw [hfetch]
  rw [hm]
  simp only [executeOpcode]
  refine ⟨?_, ?_, ?_⟩
  · rw [regs_incCycle_ne _ _ htH htL, regs_advanceIP_ne _ _ htI,
      regs_set_flag_ne _ _ _ _ htF, regs_set_flag_ne _ _ _ _ htF, regs_setReg_self]
  · rw [get_flag_incCycle, get_flag_advanceIP, get_flag_set_flag, if_neg (by decide),
      get_flag_set_flag, if_pos rfl, decide_eq_true_eq]
  · rw [get_flag_incCycle, get_flag_advanceIP, get_flag_set_flag, if_pos rfl, decide_eq_true_eq]

/-- The machine of scenario S2: registers r1 = 0xFFFFFFFF and r2 = 1, with
`AddTargetLhsRhs{target: 3, lhs: 1, rhs: 2}` at the entry point. -/
def addOverflowMachine : Machine :=
  setReg (setReg (write_opcode Machine.new ENTRY_POINT (.AddTargetLhsRhs 3 1 2)) 1 0xFFFFFFFF) 2 1

/-- C5, witness: adding 0xFFFFFFFF and 1 yields target register 3 = 0 with
both Zero and Carry set (scenario S2). -/
theorem c5_add_wrapping_sum_and_flags_witness :
    (make_tick addOverflowMachine).regs 3 = 0 ∧
    get_flag (make_tick addOverflowMachine) .Zero = true ∧
    get_flag (make_tick addOverflowMachine) .Carry = true :=
  ⟨(c5_add_wrapping_sum_and_flags addOverflowMachine 3 1 2 (by decide) (by decide)
      (by decide) (by decide)).1.trans (by decide),
   (c5_add_wrapping_sum_and_flags addOverflowMachine 3 1 2 (by decide) (by decide)
      (by decide) (by decide)).2.1.mpr (by decide),
   (c5_add_wrapping_sum_and_flags addOverflowMachine 3 1 2 (by decide) (by decide)
      (by decide) (by decide)).2.2.mpr (by decide)⟩

/-!  Claim C4. -/

/-- C4: executing `DivmodTargetModLhsRhs` when the rhs register holds 0
writes 0 to the quotient register and the lhs value unchanged to the
remainder register, sets the Zero flag and the DivideByZero flag, and the
lhs and rhs operand registers keep their values. -/
theorem c4_divmod_by_zero (m : Machine) (res rem l r : Nat)
    (hfetch : read_opcode m.mem (m.regs INSTRUCTION_POINTER) =
      some (.DivmodTargetModLhsRhs res rem l r))
    (hres : IsGeneralRegister res) (hrem : IsGeneralRegister rem)
    (hlg : IsGeneralRegister l) (hrg : IsGeneralRegister r)
    (hrr : res ≠ rem) (hlres : l ≠ res) (hlrem : l ≠ rem) (hrres : r ≠ res) (hrrem : r ≠ rem)
    (hr0 : m.regs r = 0) (hl32 : m.regs l < 2 ^ 32) :
    (make_tick m).regs res = 0 ∧
    (make_tick m).regs rem = m.regs l ∧
    get_flag (make_tick m) .Zero = true ∧
    get_flag (make_tick m) .DivideByZero = true ∧
    (make_tick m).regs l = m.regs l ∧
    (make_tick m).regs r = m.regs r := by
  obtain ⟨hresF, hresI, hresS, hresH, hresL⟩ := hres
  obtain ⟨hremF, hremI, hremS, hremH, hremL⟩ := hrem
  obtain ⟨hlF, hlI, hlS, hlH, hlL⟩ := hlg
  obtain ⟨hrF, hrI, hrS, hrH, hrL⟩ := hrg
  have hm : make_tick m = incCycle (executeOpcode m (.DivmodTargetModLhsRhs res rem l r)) := by
    unfold make_tick
    rw [hfetch]
  rw [hm]
  simp only [executeOpcode]
  rw [if_pos hr0]
  refine ⟨?_, ?_, ?_, ?_, ?_, ?_⟩
  · rw [regs_incCycle_ne _ _ hresH hresL, regs_advanceIP_ne _ _ hresI,
      regs_set_flag_ne _ _ _ _ hresF, regs_set_flag_ne _ _ _ _ hresF,
      regs_setReg_ne _ _ _ _ hrr, regs_setReg_self]
    omega
  · rw [regs_incCycle_ne _ _ hremH hremL, regs_advanceIP_ne _ _ hremI,
      regs_set_flag_ne _ _ _ _ hremF, regs_set_flag_ne _ _ _ _ hremF, regs_setReg_self]
    exact Nat.mod_eq_of_lt hl32
  · rw [get_flag_incCycle, get_flag_advanceIP, get_flag_set_flag, if_neg (by decide),
      get_flag_set_flag, if_pos rfl]
  · rw [get_flag_incCycle, get_flag_advanceIP, get_flag_set_flag, if_pos rfl]
  · rw [regs_incCycle_ne _ _ hlH hlL, regs_advanceIP_ne _ _ hlI,
      regs_set_flag_ne _ _ _ _ hlF, regs_set_flag_ne _ _ _ _ hlF,
      regs_setReg_ne _ _ _ _ hlrem, regs_setReg_ne _ _ _ _ hlres]
  · rw [regs_incCycle_ne _ _ hrH hrL, regs_advanceIP_ne _ _ hrI,
      regs_set_flag_ne _ _ _ _ hrF, regs_set_flag_ne _ _ _ _ hrF,
      regs_setReg_ne _ _ _ _ hrrem, regs_setReg_ne _ _ _ _ hrres]

/-- The machine of scenario S3: registers r1 = 15 and r2 = 0, with
`DivmodTargetModLhsRhs{result: 9, remainder: 10, lhs: 1, rhs: 2}` at the
entry point. -/
def divmodByZeroMachine : Machine :=
  setReg (setReg (write_opcode Machine.new ENTRY_POINT (.DivmodTargetModLhsRhs 9 10 1 2)) 1 15) 2 0

/-- C4, witness: with lhs = 15 and rhs = 0, the quotient register 9 becomes
0, the remainder register 10 becomes 15, Zero and DivideByZero are set and
both operand registers keep their values (scenario S3). -/
theorem c4_divmod_by_zero_witness :
    (make_tick divmodByZeroMachine).regs 9 = 0 ∧
    (make_tick divmodByZeroMachine).regs 10 = 15 ∧
    get_flag (make_tick divmodByZeroMachine) .Zero = true ∧
    get_flag (make_tick divmodByZeroMachine) .DivideByZero = true ∧
    (make_tick divmodByZeroMachine).regs 1 = 15 ∧
    (make_tick divmodByZeroMachine).regs 2 = 0 := by
  obtain ⟨h1, h2, h3, h4, h5, h6⟩ :=
    c4_divmod_by_zero divmodByZeroMachine 9 10 1 2 (by decide) (by decide) (by decide)
      (by decide) (by decide) (by decide) (by decide) (by decide) (by decide) (by decide)
      (by decide) (by decide)
  exact ⟨h1, h2.trans (by decide), h3, h4, h5.trans (by decide), h6.trans (by decide)⟩

/-!  Claim C6. -/

/-- C6: for every shift instruction (`LeftShiftTargetLhsRhs` or
`RightShiftTargetLhsRhs`) whose rhs operand value is at least 32, the
target register is set to 0, the Zero flag is set, and the Carry flag is
set iff the lhs operand value was nonzero. -/
theorem c6_shift_at_least_32 (m : Machine) (t l r : Nat)
    (hfetch : read_opcode m.mem (m.regs INSTRUCTION_POINTER) =
        some (.LeftShiftTargetLhsRhs t l r) ∨
      read_opcode m.mem (m.regs INSTRUCTION_POINTER) = some (.RightShiftTargetLhsRhs t l r))
    (ht : IsGeneralRegister t) (hr32 : 32 ≤ m.regs r) :
    (make_tick m).regs t = 0 ∧
    get_flag (make_tick m) .Zero = true ∧
    (get_flag (make_tick m) .Carry = true ↔ m.regs l ≠ 0) := by
  obtain ⟨htF, htI, htS, htH, htL⟩ := ht
  rcases hfetch with hfetch | hfetch
  · have hm : make_tick m = incCycle (executeOpcode m (.LeftShiftTargetLhsRhs t l r)) := by
      unfold make_tick
      rw [hfetch]
    rw [hm]
    simp only [executeOpcode]
    rw [if_pos hr32]
    refine ⟨?_, ?_, ?_⟩
    · rw [regs_incCycle_ne _ _ htH htL, regs_advanceIP_ne _ _ htI,
        regs_set_flag_ne _ _ _ _ htF, regs_set_flag_ne _ _ _ _ htF, regs_setReg_self]
      omega
    · rw [get_flag_incCycle, get_flag_advanceIP, get_flag_set_flag, if_neg (by decide),
        get_flag_set_flag, if_pos rfl]
    · rw [get_flag_incCycle, get_flag_advanceIP, get_flag_set_flag, if_pos rfl,
        decide_eq_true_eq]
  · have hm : make_tick m = incCycle (executeOpcode m (.RightShiftTargetLhsRhs t l r)) := by
      unfold make_tick
      rw [hfetch]
    rw [hm]
    simp only [executeOpcode]
    rw [if_pos hr32]
    refine ⟨?_, ?_, ?_⟩
    · rw [regs_incCycle_ne _ _ htH htL, regs_advanceIP_ne _ _ htI,
        regs_set_flag_ne _ _ _ _ htF, regs_set_flag_ne _ _ _ _ htF, regs_setReg_self]
      omega
    · rw [get_flag_incCycle, get_flag_advanceIP, get_flag_set_flag, if_neg (by decide),
        get_flag_set_flag, if_pos rfl]
    · rw [get_flag_incCycle, get_flag_advanceIP, get_flag_set_flag, if_pos rfl,
        decide_eq_true_eq]

/-- The machine of the test `left_shift_way_too_far`: lhs register 5 holds
0xFFFFFFFF, rhs register 6 holds 123, shifting into target register 10. -/
def shiftTooFarMachine : Machine :=
  setReg (setReg (write_opcode Machine.new ENTRY_POINT (.LeftShiftTargetLhsRhs 10 5 6))
    5 0xFFFFFFFF) 6 123

/-- C6, witness: shifting 0xFFFFFFFF left by 123 yields target 0 with Zero
set and Carry set (information was lost). -/
theorem c6_shift_at_least_32_witness :
    (make_tick shiftTooFarMachine).regs 10 = 0 ∧
    get_flag (make_tick shiftTooFarMachine) .Zero = true ∧
    get_flag (make_tick shiftTooFarMachine) .Carry = true := by
  obtain ⟨h1, h2, h3⟩ :=
    c6_shift_at_least_32 shiftTooFarMachine 10 5 6 (Or.inl (by decide)) (by decide) (by decide)
  exact ⟨h1, h2, h3.mpr (by decide)⟩

/-!  Claim C7. -/

/-- C7: `CompareTargetLhsRhs` writes 1 to the target register if
lhs > rhs, 0 if lhs = rhs, and `Word::MAX` (all ones) if lhs < rhs, and
sets the Zero flag iff the operands are equal; a subsequent
`JumpAddressIfLessThan` on that register sets the INSTRUCTION_POINTER to
the jump address exactly when the register holds `Word::MAX`, and
otherwise the INSTRUCTION_POINTER advances normally by 8. -/
theorem c7_compare_and_jump_if_less_than :
    (∀ (m : Machine) (t l r : Nat),
      read_opcode m.mem (m.regs INSTRUCTION_POINTER) = some (.CompareTargetLhsRhs t l r) →
      IsGeneralRegister t →
      (m.regs r < m.regs l → (make_tick m).regs t = 1) ∧
      (m.regs l = m.regs r → (make_tick m).regs t = 0) ∧
      (m.regs l < m.regs r → (make_tick m).regs t = 2 ^ 32 - 1) ∧
      (get_flag (make_tick m) .Zero = true ↔ m.regs l = m.regs r)) ∧
    (∀ (m : Machine) (reg a : Nat),
      read_opcode m.mem (m.regs INSTRUCTION_POINTER) = some (.JumpAddressIfLessThan reg a) →
      a < 2 ^ 32 → m.regs INSTRUCTION_POINTER + 8 < 2 ^ 32 →
      (m.regs reg = 2 ^ 32 - 1 → (make_tick m).regs INSTRUCTION_POINTER = a) ∧
      (m.regs reg ≠ 2 ^ 32 - 1 →
        (make_tick m).regs INSTRUCTION_POINTER = m.regs INSTRUCTION_POINTER + 8)) := by
  constructor
  · intro m t l r hfetch ht
    obtain ⟨htF, htI, htS, htH, htL⟩ := ht
    have hm : make_tick m = incCycle (executeOpcode m (.CompareTargetLhsRhs t l r)) := by
      unfold make_tick
      rw [hfetch]
    rw [hm]
    simp only [executeOpcode]
    refine ⟨?_, ?_, ?_, ?_⟩
    · intro hgt
      rw [regs_incCycle_ne _ _ htH htL, regs_advanceIP_ne _ _ htI,
        regs_set_flag_ne _ _ _ _ htF, regs_setReg_self, if_pos hgt]
      omega
    · intro heq
      rw [regs_incCycle_ne _ _ htH htL, regs_advanceIP_ne _ _ htI,
        regs_set_flag_ne _ _ _ _ htF, regs_setReg_self, if_neg (by omega), if_pos heq]
      omega
    · intro hlt
      rw [regs_incCycle_ne _ _ htH htL, regs_advanceIP_ne _ _ htI,
        regs_set_flag_ne _ _ _ _ htF, regs_setReg_self, if_neg (by omega), if_neg (by omega)]
      omega
    · rw [get_flag_incCycle, get_flag_advanceIP, get_flag_set_flag, if_pos rfl,
        decide_eq_true_eq]
  · intro m reg a hfetch ha hip
    have hm : make_tick m = incCycle (executeOpcode m (.JumpAddressIfLessThan reg a)) := by
      unfold make_tick
      rw [hfetch]
    rw [hm]
    simp only [executeOpcode]
    constructor
    · intro hmax
      rw [if_pos hmax, regs_incCycle_ne _ _ (by decide) (by decide), regs_setReg_self]
      exact Nat.mod_eq_of_lt ha
    · intro hne
      rw [if_neg hne, regs_incCycle_ne _ _ (by decide) (by decide)]
      unfold advanceIP
      rw [regs_setReg_self]
      exact Nat.mod_eq_of_lt hip

/-- The machine of scenario S4, first instruction: registers r1 = 10 and
r2 = 12 with `CompareTargetLhsRhs{target: 10, lhs: 1, rhs: 2}` loaded. -/
def compareLessMachine : Machine :=
  setReg (setReg (write_opcode Machine.new ENTRY_POINT (.CompareTargetLhsRhs 10 1 2)) 1 10) 2 12

/-- The machine of scenario S4, second instruction: register 0 holds
`Word::MAX` and `JumpAddressIfLessThan{register: 0, address: 0x3000}` is
loaded at the entry point. -/
def jumpLessMachine : Machine :=
  setReg (write_opcode Machine.new ENTRY_POINT (.JumpAddressIfLessThan 0 0x3000)) 0 0xFFFFFFFF

/-- C7, witness: comparing 10 against 12 writes `Word::MAX` to the target
register with the Zero flag clear, and a `JumpAddressIfLessThan` on a
register holding `Word::MAX` sets the INSTRUCTION_POINTER to the jump
address. -/
theorem c7_compare_and_jump_if_less_than_witness :
    (make_tick compareLessMachine).regs 10 = 2 ^ 32 - 1 ∧
    (make_tick jumpLessMachine).regs INSTRUCTION_POINTER = 0x3000 :=
  ⟨((c7_compare_and_jump_if_less_than.1 compareLessMachine 10 1 2 (by decide)
      (by decide)).2.2.1 (by decide)),
   ((c7_compare_and_jump_if_less_than.2 jumpLessMachine 0 0x3000 (by decide)
      (by decide) (by decide)).1 (by decide))⟩

/-!  Claim C10. -/

/-- C10: `SubtractWithCarryTargetLhsRhs` incorporates the incoming Carry
flag: the target register receives `lhs - rhs - carry_in` computed with
32-bit wrapping arithmetic; afterwards the Carry flag is set iff the
subtraction including the borrow underflows, and the Zero flag iff the
result is 0. -/
theorem c10_subtract_with_carry (m : Machine) (t l r : Nat)
    (hfetch : read_opcode m.mem (m.regs INSTRUCTION_POINTER) =
      some (.SubtractWithCarryTargetLhsRhs t l r))
    (ht : IsGeneralRegister t) (hl : m.regs l < 2 ^ 32) (hr : m.regs r < 2 ^ 32) :
    (make_tick m).regs t =
      (m.regs l + 2 ^ 32 - m.regs r - (if get_flag m .Carry then 1 else 0)) % 2 ^ 32 ∧
    (get_flag (make_tick m) .Carry = true ↔
      m.regs l < m.regs r + (if get_flag m .Carry then 1 else 0)) ∧
    (get_flag (make_tick m) .Zero = true ↔
      (m.regs l + 2 ^ 32 - m.regs r - (if get_flag m .Carry then 1 else 0)) % 2 ^ 32 = 0) := by
  obtain ⟨htF, htI, htS, htH, htL⟩ := ht
  have hm : make_tick m = incCycle (executeOpcode m (.SubtractWithCarryTargetLhsRhs t l r)) := by
    unfold make_tick
    rw [hfetch]
  rw [hm]
  simp only [executeOpcode]
  have hc : (if get_flag m .Carry then 1 else 0 : Nat) ≤ 1 := by
    cases get_flag m .Carry <;> simp
  refine ⟨?_, ?_, ?_⟩
  · rw [regs_incCycle_ne _ _ htH htL, regs_advanceIP_ne _ _ htI,
      regs_set_flag_ne _ _ _ _ htF, regs_set_flag_ne _ _ _ _ htF, regs_setReg_self]
    omega
  · rw [get_flag_incCycle, get_flag_advanceIP, get_flag_set_flag, if_pos rfl,
      decide_eq_true_eq]
  · rw [get_flag_incCycle, get_flag_advanceIP, get_flag_set_flag, if_neg (by decide),
      get_flag_set_flag, if_pos rfl, decide_eq_true_eq]
    omega

/-- The machine of the test
`subtract_two_values_with_carry_with_both_carry_and_zero_flags_set`:
lhs register 0x42 holds 0, rhs register 0x43 holds `Word::MAX`, the Carry
flag is set before execution. -/
def swcBothFlagsMachine : Machine :=
  set_flag (setReg (setReg (write_opcode Machine.new ENTRY_POINT
    (.SubtractWithCarryTargetLhsRhs 10 0x42 0x43)) 0x42 0) 0x43 0xFFFFFFFF) .Carry true

/-- C10, witness: with lhs = 0, rhs = `Word::MAX` and incoming Carry set,
the result is 0 and both Zero and Carry end up set. -/
theorem c10_subtract_with_carry_witness :
    (make_tick swcBothFlagsMachine).regs 10 = 0 ∧
    get_flag (make_tick swcBothFlagsMachine) .Carry = true ∧
    get_flag (make_tick swcBothFlagsMachine) .Zero = true := by
  obtain ⟨h1, h2, h3⟩ :=
    c10_subtract_with_carry swcBothFlagsMachine 10 0x42 0x43 (by decide) (by decide)
      (by decide) (by decide)
  exact ⟨h1.trans (by decide), h2.mpr (by decide), h3.mpr (by decide)⟩

/-!  Claim C1. -/

/-- The machine of scenario S7: `HaltAndCatchFire` at the entry point
followed by an arbitrary instruction. -/
def haltMachine (op : Opcode) : Machine :=
  loadOpcodes [.HaltAndCatchFire, op] ENTRY_POINT Machine.new

theorem loadOpcodes_regs (l : List Opcode) (a : Nat) (m : Machine) :
    (loadOpcodes l a m).regs = m.regs := by
  induction l generalizing a m with
  | nil => rfl
  | cons op rest ih => rw [loadOpcodes, ih, regs_write_opcode]

theorem haltMachine_fetch (op : Opcode) :
    read_opcode (haltMachine op).mem ENTRY_POINT = some .HaltAndCatchFire := by
  unfold haltMachine
  simp only [loadOpcodes]
  unfold read_opcode
  rw [mem_write_opcode, mem_write_opcode,
    read_instruction_write_instruction_bytes_out _ _ _ _ (Or.inl (by omega)),
    read_instruction_write_instruction_bytes_self, Nat.mod_eq_of_lt (encode_lt _)]
  decide

theorem haltMachine_regs (op : Opcode) : (haltMachine op).regs = Machine.new.regs :=
  loadOpcodes_regs _ _ _

/-- Every state whose memory agrees with the halt program and whose
registers (apart from the cycle counter) agree with it keeps satisfying
that invariant under ticks: the fetch always sees `HaltAndCatchFire` and
the tick only increments the cycle counter. -/
theorem haltMachine_tick_invariant (op : Opcode) (s : Machine)
    (hmem : s.mem = (haltMachine op).mem)
    (hregs : ∀ x, x ≠ CYCLE_COUNT_HIGH → x ≠ CYCLE_COUNT_LOW →
      s.regs x = (haltMachine op).regs x) (n : Nat) :
    (tickN n s).mem = (haltMachine op).mem ∧
    ∀ x, x ≠ CYCLE_COUNT_HIGH → x ≠ CYCLE_COUNT_LOW →
      (tickN n s).regs x = (haltMachine op).regs x := by
  induction n generalizing s with
  | zero => exact ⟨hmem, hregs⟩
  | succ n ih =>
    have hip : s.regs INSTRUCTION_POINTER = ENTRY_POINT := by
      rw [hregs INSTRUCTION_POINTER (by decide) (by decide), haltMachine_regs]
      decide
    have hfetchs : read_opcode s.mem (s.regs INSTRUCTION_POINTER) = some .HaltAndCatchFire := by
      rw [hmem, hip]
      exact haltMachine_fetch op
    have htick : make_tick s = incCycle s := by
      unfold make_tick
      rw [hfetchs]
    simp only [tickN]
    rw [htick]
    exact ih (incCycle s) (by rw [mem_incCycle, hmem])
      (fun x h1 h2 => by rw [regs_incCycle_ne _ _ h1 h2]; exact hregs x h1 h2)

/-- C1: with `HaltAndCatchFire` at ENTRY_POINT and any instruction placed
immediately after it, after any number of ticks the INSTRUCTION_POINTER
still equals ENTRY_POINT and the second instruction has no observable
effect: every register outside the cycle counter and the architecturally
initialised instruction and stack pointers still holds 0. -/
theorem c1_halt_and_catch_fire_stops_machine (op : Opcode) (n : Nat) (x : Nat)
    (hH : x ≠ CYCLE_COUNT_HIGH) (hL : x ≠ CYCLE_COUNT_LOW) :
    (tickN n (haltMachine op)).regs INSTRUCTION_POINTER = ENTRY_POINT ∧
    (x ≠ INSTRUCTION_POINTER → x ≠ STACK_POINTER → (tickN n (haltMachine op)).regs x = 0) := by
  obtain ⟨hmem, hregs⟩ :=
    haltMachine_tick_invariant op (haltMachine op) rfl (fun _ _ _ => rfl) n
  constructor
  · rw [hregs INSTRUCTION_POINTER (by decide) (by decide), haltMachine_regs]
    decide
  · intro hxI hxS
    rw [hregs x hH hL, haltMachine_regs]
    show (if x = INSTRUCTION_POINTER then ENTRY_POINT
      else if x = STACK_POINTER then STACK_START else 0) = 0
    rw [if_neg hxI, if_neg hxS]

/-- C1, witness: with `MoveRegisterImmediate{register: 5, immediate: 0x42}`
after the halt instruction and two ticks, the INSTRUCTION_POINTER is still
ENTRY_POINT and register 5 still holds 0 (the machine.rs test
`halt_and_catch_fire_prevents_further_instructions`). -/
theorem c1_halt_and_catch_fire_stops_machine_witness :
    (tickN 2 (haltMachine (.MoveRegisterImmediate 5 0x42))).regs INSTRUCTION_POINTER =
      ENTRY_POINT ∧
    (tickN 2 (haltMachine (.MoveRegisterImmediate 5 0x42))).regs 5 = 0 :=
  ⟨(c1_halt_and_catch_fire_stops_machine (.MoveRegisterImmediate 5 0x42) 2 5
      (by decide) (by decide)).1,
   (c1_halt_and_catch_fire_stops_machine (.MoveRegisterImmediate 5 0x42) 2 5
      (by decide) (by decide)).2 (by decide) (by decide)⟩

/-!  Claim C8. -/

/-- Effect of one tick on a machine whose current instruction is
`CallAddress a`: the return address (current instruction pointer plus 8)
is pushed at the stack pointer, the stack pointer advances by 4, and the
instruction pointer becomes `a`. -/
theorem call_effect (m : Machine) (a : Nat)
    (hfetch : read_opcode m.mem (m.regs INSTRUCTION_POINTER) = some (.CallAddress a))
    (ha : a < 2 ^ 32) (hip : m.regs INSTRUCTION_POINTER + 8 < 2 ^ 32)
    (hsp : m.regs STACK_POINTER + 4 < 2 ^ 32) :
    (make_tick m).regs INSTRUCTION_POINTER = a ∧
    (make_tick m).regs STACK_POINTER = m.regs STACK_POINTER + 4 ∧
    read_data (make_tick m).mem (m.regs STACK_POINTER) = m.regs INSTRUCTION_POINTER + 8 := by
  have hm : make_tick m = incCycle (executeOpcode m (.CallAddress a)) := by
    unfold make_tick
    rw [hfetch]
  rw [hm]
  simp only [executeOpcode]
  refine ⟨?_, ?_, ?_⟩
  · rw [regs_incCycle_ne _ _ (by decide) (by decide), regs_setReg_self]
    exact Nat.mod_eq_of_lt ha
  · rw [regs_incCycle_ne _ _ (by decide) (by decide),
      regs_setReg_ne _ _ _ _ (by decide), regs_setReg_self]
    exact Nat.mod_eq_of_lt hsp
  · rw [mem_incCycle, mem_setReg, mem_setReg, mem_write_data,
      read_data_write_data_bytes_self]
    exact Nat.mod_eq_of_lt hip

/-- Effect of one tick on a machine whose current instruction is `Return`:
a Word is popped from the stack and the instruction pointer is set to it. -/
theorem return_effect (m : Machine)
    (hfetch : read_opcode m.mem (m.regs INSTRUCTION_POINTER) = some .Return)
    (hval : read_data m.mem (m.regs STACK_POINTER - 4) < 2 ^ 32)
    (hsp : m.regs STACK_POINTER < 2 ^ 32) :
    (make_tick m).regs INSTRUCTION_POINTER = read_data m.mem (m.regs STACK_POINTER - 4) ∧
    (make_tick m).regs STACK_POINTER = m.regs STACK_POINTER - 4 := by
  have hm : make_tick m = incCycle (executeOpcode m .Return) := by
    unfold make_tick
    rw [hfetch]
  rw [hm]
  simp only [executeOpcode]
  constructor
  · rw [regs_incCycle_ne _ _ (by decide) (by decide), regs_setReg_self]
    exact Nat.mod_eq_of_lt hval
  · rw [regs_incCycle_ne _ _ (by decide) (by decide),
      regs_setReg_ne _ _ _ _ (by decide), regs_setReg_self]
    exact Nat.mod_eq_of_lt (by omega)

/-- C8: `CallAddress` pushes the return address (the current
INSTRUCTION_POINTER plus 8) onto the stack and sets the
INSTRUCTION_POINTER to the given address; `Return` pops a Word from the
stack and sets the INSTRUCTION_POINTER to it; a call followed by a return
resumes execution at the instruction after the call with the stack pointer
restored. -/
theorem c8_call_and_return :
    (∀ (m : Machine) (a : Nat),
      read_opcode m.mem (m.regs INSTRUCTION_POINTER) = some (.CallAddress a) →
      a < 2 ^ 32 → m.regs INSTRUCTION_POINTER + 8 < 2 ^ 32 →
      m.regs STACK_POINTER + 4 < 2 ^ 32 →
      (make_tick m).regs INSTRUCTION_POINTER = a ∧
      (make_tick m).regs STACK_POINTER = m.regs STACK_POINTER + 4 ∧
      read_data (make_tick m).mem (m.regs STACK_POINTER) = m.regs INSTRUCTION_POINTER + 8) ∧
    (∀ (m : Machine),
      read_opcode m.mem (m.regs INSTRUCTION_POINTER) = some .Return →
      read_data m.mem (m.regs STACK_POINTER - 4) < 2 ^ 32 → m.regs STACK_POINTER < 2 ^ 32 →
      (make_tick m).regs INSTRUCTION_POINTER = read_data m.mem (m.regs STACK_POINTER - 4) ∧
      (make_tick m).regs STACK_POINTER = m.regs STACK_POINTER - 4) ∧
    (∀ (m : Machine) (a : Nat),
      read_opcode m.mem (m.regs INSTRUCTION_POINTER) = some (.CallAddress a) →
      read_opcode (make_tick m).mem ((make_tick m).regs INSTRUCTION_POINTER) = some .Return →
      a < 2 ^ 32 → m.regs INSTRUCTION_POINTER + 8 < 2 ^ 32 →
      m.regs STACK_POINTER + 4 < 2 ^ 32 →
      (make_tick (make_tick m)).regs INSTRUCTION_POINTER = m.regs INSTRUCTION_POINTER + 8 ∧
      (make_tick (make_tick m)).regs STACK_POINTER = m.regs STACK_POINTER) := by
  refine ⟨call_effect, return_effect, ?_⟩
  intro m a hfetch1 hfetch2 ha hip hsp
  obtain ⟨hip1, hsp1, hrd1⟩ := call_effect m a hfetch1 ha hip hsp
  have he : (make_tick m).regs STACK_POINTER - 4 = m.regs STACK_POINTER := by
    rw [hsp1]
    omega
  have hval : read_data (make_tick m).mem ((make_tick m).regs STACK_POINTER - 4) < 2 ^ 32 := by
    rw [he, hrd1]
    exact hip
  obtain ⟨hip2, hsp2⟩ := return_effect (make_tick m) hfetch2 hval (by rw [hsp1]; omega)
  constructor
  · rw [hip2, he, hrd1]
  · rw [hsp2, he]

/-- The machine of the test `call_and_return`: `CallAddress` at the entry
point targeting ENTRY_POINT + 1600, where a `Return` is placed. -/
def callReturnMachine : Machine :=
  write_opcode (write_opcode Machine.new ENTRY_POINT (.CallAddress (ENTRY_POINT + 1600)))
    (ENTRY_POINT + 1600) .Return

/-- C8, witness: a call followed by a return resumes at ENTRY_POINT + 8
with the stack pointer back at STACK_START; the pushed return address is
readable at STACK_START after the call. -/
theorem c8_call_and_return_witness :
    read_data (make_tick callReturnMachine).mem STACK_START = ENTRY_POINT + 8 ∧
    (make_tick (make_tick callReturnMachine)).regs INSTRUCTION_POINTER = ENTRY_POINT + 8 ∧
    (make_tick (make_tick callReturnMachine)).regs STACK_POINTER = STACK_START := by
  obtain ⟨hc1, hc2, hc3⟩ :=
    c8_call_and_return.1 callReturnMachine (ENTRY_POINT + 1600) (by decide) (by decide)
      (by decide) (by decide)
  obtain ⟨hr1, hr2⟩ :=
    c8_call_and_return.2.2 callReturnMachine (ENTRY_POINT + 1600) (by decide) (by decide)
      (by decide) (by decide) (by decide)
  have e1 : callReturnMachine.regs STACK_POINTER = STACK_START := by decide
  have e2 : callReturnMachine.regs INSTRUCTION_POINTER = ENTRY_POINT := by decide
  rw [e1, e2] at hc3
  rw [e2] at hr1
  rw [e1] at hr2
  exact ⟨hc3, hr1, hr2⟩

/-!  Claim C3. -/

/-- The two failure modes of ROM loading (`load_rom` in src/main.rs):
a file size not divisible by 8, or an instruction that does not decode
(the `expect("Invalid instruction")` panic). -/
inductive RomError where
  | RomSizeNotAligned
  | InvalidOpcode
  deriving DecidableEq, Repr

/-- Big-endian 64-bit value of eight consecutive buffer bytes
(`Instruction::from_be_bytes` in src/main.rs line 264). -/
def chunkVal (b0 b1 b2 b3 b4 b5 b6 b7 : Nat) : Nat :=
  ((((((b0 * 256 + b1) * 256 + b2) * 256 + b3) * 256 + b4) * 256 + b5) * 256 + b6) * 256 + b7

/-- The big-endian value of the k-th 8-byte chunk of a byte buffer. -/
def chunkAt : List Nat → Nat → Nat
  | b0 :: b1 :: b2 :: b3 :: b4 :: b5 :: b6 :: b7 :: rest, k =>
      match k with
      | 0 => chunkVal b0 b1 b2 b3 b4 b5 b6 b7
      | k + 1 => chunkAt rest k
  | _, _ => 0

/-- The chunk loop of `load_rom` (src/main.rs lines 262-272): interpret
each 8-byte group as a big-endian Instruction, decode it
(`instruction.try_into().expect("Invalid instruction")`, modelled as the
`InvalidOpcode` error) and `write_opcode` it to the next address.  The
short-list arm is unreachable under the length guard of `load_rom`. -/
def load_rom_go : List Nat → Nat → Machine → Except RomError Machine
  | [], _, m => .ok m
  | b0 :: b1 :: b2 :: b3 :: b4 :: b5 :: b6 :: b7 :: rest, a, m =>
      match decode (chunkVal b0 b1 b2 b3 b4 b5 b6 b7) with
      | none => .error .InvalidOpcode
      | some op => load_rom_go rest (a + 8) (write_opcode m a op)
  | _, _, _ => .error .RomSizeNotAligned

/-- `load_rom` (src/main.rs lines 257-274): require the buffer length to be
divisible by 8 (`RomSizeNotAligned` otherwise), then write the successive
big-endian Instructions to `ENTRY_POINT, ENTRY_POINT + 8, …`. -/
def load_rom (buffer : List Nat) (m : Machine) : Except RomError Machine :=
  if buffer.length % 8 ≠ 0 then .error .RomSizeNotAligned
  else load_rom_go buffer ENTRY_POINT m

theorem read_instruction_congr (mem1 mem2 : Nat → Nat) (a : Nat)
    (h : ∀ x, x < a + 8 → mem1 x = mem2 x) :
    read_instruction mem1 a = read_instruction mem2 a := by
  unfold read_instruction
  rw [h a (by omega), h (a + 1) (by omega), h (a + 2) (by omega), h (a + 3) (by omega),
    h (a + 4) (by omega), h (a + 5) (by omega), h (a + 6) (by omega), h (a + 7) (by omega)]

theorem load_rom_go_mem_lt (l : List Nat) (a : Nat) (m : Machine) :
    ∀ m', load_rom_go l a m = .ok m' → ∀ x, x < a → m'.mem x = m.mem x := by
  induction l, a, m using load_rom_go.induct with
  | case1 _ m =>
    intro m' h x _
    injection h with h
    rw [h]
  | case2 b0 b1 b2 b3 b4 b5 b6 b7 rest a m hdec =>
    intro m' h x _
    simp only [load_rom_go, hdec] at h
    exact Except.noConfusion h
  | case3 b0 b1 b2 b3 b4 b5 b6 b7 rest a m op hdec ih =>
    intro m' h x hx
    simp only [load_rom_go, hdec] at h
    rw [ih m' h x (by omega), mem_write_opcode,
      write_instruction_bytes_out _ _ _ _ (by omega)]
  | case4 l a m h1 h2 =>
    intro m' h x _
    rw [load_rom_go] at h
    · exact Except.noConfusion h
    · exact h1
    · exact h2

theorem load_rom_go_reads (l : List Nat) (a : Nat) (m : Machine) :
    ∀ m', load_rom_go l a m = .ok m' →
      ∀ k, k < l.length / 8 → read_instruction m'.mem (a + 8 * k) = chunkAt l k := by
  induction l, a, m using load_rom_go.induct with
  | case1 _ m =>
    intro m' _ k hk
    simp at hk
  | case2 b0 b1 b2 b3 b4 b5 b6 b7 rest a m hdec =>
    intro m' h k hk
    simp only [load_rom_go, hdec] at h
    exact Except.noConfusion h
  | case3 b0 b1 b2 b3 b4 b5 b6 b7 rest a m op hdec ih =>
    intro m' h k hk
    simp only [load_rom_go, hdec] at h
    match k with
    | 0 =>
      have hlow := load_rom_go_mem_lt rest (a + 8) (write_opcode m a op) m' h
      have hread : read_instruction m'.mem (a + 8 * 0) =
          read_instruction (write_opcode m a op).mem a := by
        rw [show a + 8 * 0 = a from by omega]
        exact read_instruction_congr _ _ a (fun x hx => hlow x (by omega))
      rw [hread, read_instruction_write_opcode_self, encode_decode _ _ hdec]
      rfl
    | k + 1 =>
      have hrest : k < rest.length / 8 := by
        have hl : (b0 :: b1 :: b2 :: b3 :: b4 :: b5 :: b6 :: b7 :: rest).length =
            rest.length + 8 := by simp
        omega
      have := ih m' h k hrest
      rw [show a + 8 * (k + 1) = a + 8 + 8 * k from by omega]
      exact this
  | case4 l a m h1 h2 =>
    intro m' h k hk
    rw [load_rom_go] at h
    · exact Except.noConfusion h
    · exact h1
    · exact h2

theorem load_rom_go_fails (l : List Nat) (a : Nat) (m : Machine) :
    l.length % 8 = 0 →
    (∃ k, k < l.length / 8 ∧ decode (chunkAt l k) = none) →
    load_rom_go l a m = .error .InvalidOpcode := by
  induction l, a, m using load_rom_go.induct with
  | case1 _ m =>
    intro _ hbad
    obtain ⟨k, hk, _⟩ := hbad
    simp at hk
  | case2 b0 b1 b2 b3 b4 b5 b6 b7 rest a m hdec =>
    intro _ _
    simp only [load_rom_go, hdec]
  | case3 b0 b1 b2 b3 b4 b5 b6 b7 rest a m op hdec ih =>
    intro hlen hbad
    have hl : (b0 :: b1 :: b2 :: b3 :: b4 :: b5 :: b6 :: b7 :: rest).length =
        rest.length + 8 := by simp
    simp only [load_rom_go, hdec]
    obtain ⟨k, hk, hknone⟩ := hbad
    match k, hknone with
    | 0, hknone =>
      rw [show chunkAt (b0 :: b1 :: b2 :: b3 :: b4 :: b5 :: b6 :: b7 :: rest) 0 =
        chunkVal b0 b1 b2 b3 b4 b5 b6 b7 from rfl] at hknone
      rw [hdec] at hknone
      exact Option.noConfusion hknone
    | k + 1, hknone =>
      exact ih (by omega) ⟨k, by omega, hknone⟩
  | case4 l a m h1 h2 =>
    intro hlen _
    rcases l with _ | ⟨x0, _ | ⟨x1, _ | ⟨x2, _ | ⟨x3, _ | ⟨x4, _ | ⟨x5, _ | ⟨x6, _ | ⟨x7, tail⟩⟩⟩⟩⟩⟩⟩⟩
    · exact absurd rfl h1
    · simp at hlen
    · simp at hlen
    · simp at hlen
    · simp at hlen
    · simp at hlen
    · simp at hlen
    · simp at hlen
    · exact absurd rfl (h2 x0 x1 x2 x3 x4 x5 x6 x7 tail)

theorem load_rom_go_ok (l : List Nat) (a : Nat) (m : Machine) :
    l.length % 8 = 0 →
    (∀ k, k < l.length / 8 → ∃ op, decode (chunkAt l k) = some op) →
    ∃ m', load_rom_go l a m = .ok m' := by
  induction l, a, m using load_rom_go.induct with
  | case1 _ m => exact fun _ _ => ⟨m, rfl⟩
  | case2 b0 b1 b2 b3 b4 b5 b6 b7 rest a m hdec =>
    intro hlen hgood
    have hl : (b0 :: b1 :: b2 :: b3 :: b4 :: b5 :: b6 :: b7 :: rest).length =
        rest.length + 8 := by simp
    obtain ⟨op, hop⟩ := hgood 0 (by omega)
    rw [show chunkAt (b0 :: b1 :: b2 :: b3 :: b4 :: b5 :: b6 :: b7 :: rest) 0 =
      chunkVal b0 b1 b2 b3 b4 b5 b6 b7 from rfl, hdec] at hop
    exact Option.noConfusion hop
  | case3 b0 b1 b2 b3 b4 b5 b6 b7 rest a m op hdec ih =>
    intro hlen hgood
    have hl : (b0 :: b1 :: b2 :: b3 :: b4 :: b5 :: b6 :: b7 :: rest).length =
        rest.length + 8 := by simp
    obtain ⟨m', hm'⟩ := ih (by omega)
      (fun k hk => hgood (k + 1) (by omega))
    exact ⟨m', by simp only [load_rom_go, hdec]; exact hm'⟩
  | case4 l a m h1 h2 =>
    intro hlen _
    rcases l with _ | ⟨x0, _ | ⟨x1, _ | ⟨x2, _ | ⟨x3, _ | ⟨x4, _ | ⟨x5, _ | ⟨x6, _ | ⟨x7, tail⟩⟩⟩⟩⟩⟩⟩⟩
    · exact absurd rfl h1
    · simp at hlen
    · simp at hlen
    · simp at hlen
    · simp at hlen
    · simp at hlen
    · simp at hlen
    · simp at hlen
    · exact absurd rfl (h2 x0 x1 x2 x3 x4 x5 x6 x7 tail)

/-- C3: ROM loading errors with RomSizeNotAligned on every buffer whose
length is not a multiple of 8; on a buffer of length divisible by 8 it
fails with InvalidOpcode when some 8-byte big-endian chunk does not decode
to a valid Opcode, and otherwise succeeds, with the successive chunks
readable in memory at ENTRY_POINT, ENTRY_POINT + 8, …. -/
theorem c3_load_rom (buffer : List Nat) (m : Machine) :
    (buffer.length % 8 ≠ 0 → load_rom buffer m = .error .RomSizeNotAligned) ∧
    (buffer.length % 8 = 0 →
      ((∃ k, k < buffer.length / 8 ∧ decode (chunkAt buffer k) = none) →
        load_rom buffer m = .error .InvalidOpcode) ∧
      ((∀ k, k < buffer.length / 8 → ∃ op, decode (chunkAt buffer k) = some op) →
        ∃ m', load_rom buffer m = .ok m' ∧
          ∀ k, k < buffer.length / 8 →
            read_instruction m'.mem (ENTRY_POINT + 8 * k) = chunkAt buffer k)) := by
  constructor
  · intro hlen
    unfold load_rom
    rw [if_pos hlen]
  · intro hlen
    constructor
    · intro hbad
      unfold load_rom
      rw [if_neg (by omega)]
      exact load_rom_go_fails buffer ENTRY_POINT m hlen hbad
    · intro hgood
      obtain ⟨m', hm'⟩ := load_rom_go_ok buffer ENTRY_POINT m hlen hgood
      refine ⟨m', ?_, ?_⟩
      · unfold load_rom
        rw [if_neg (by omega)]
        exact hm'
      · exact load_rom_go_reads buffer ENTRY_POINT m m' hm'

/-- A well-formed 16-byte ROM: `MoveRegisterImmediate 10 0xABCD1234`
followed by `HaltAndCatchFire`, in big-endian instruction encoding. -/
def romBufferGood : List Nat :=
  [0, 0, 10, 0xAB, 0xCD, 0x12, 0x34, 0,
   0, 37, 0, 0, 0, 0, 0, 0]

/-- C3, witness: a 3-byte buffer is rejected as RomSizeNotAligned, an
8-byte buffer with an undecodable tag is rejected as InvalidOpcode, and
the well-formed 16-byte ROM loads with both chunks readable in memory. -/
theorem c3_load_rom_witness :
    load_rom [1, 2, 3] Machine.new = .error .RomSizeNotAligned ∧
    load_rom [0xFF, 0xFF, 0, 0, 0, 0, 0, 0] Machine.new = .error .InvalidOpcode ∧
    ∃ m', load_rom romBufferGood Machine.new = .ok m' ∧
      ∀ k, k < romBufferGood.length / 8 →
        read_instruction m'.mem (ENTRY_POINT + 8 * k) = chunkAt romBufferGood k := by
  refine ⟨?_, ?_, ?_⟩
  · exact (c3_load_rom [1, 2, 3] Machine.new).1 (by decide)
  · exact ((c3_load_rom [0xFF, 0xFF, 0, 0, 0, 0, 0, 0] Machine.new).2 (by decide)).1
      ⟨0, by decide, by decide⟩
  · refine ((c3_load_rom romBufferGood Machine.new).2 (by decide)).2 ?_
    intro k hk
    have h2 : k < 2 := by
      have : romBufferGood.length / 8 = 2 := by decide
      omega
    match k, h2 with
    | 0, _ => exact ⟨.MoveRegisterImmediate 10 0xABCD1234, by decide⟩
    | 1, _ => exact ⟨.HaltAndCatchFire, by decide⟩

/-!  Claim C9. -/

/-- Modelled from the spec: execute a `PushRegister` for each register in
the list, in order (the push loop of the machine.rs test
push_and_pop_multiple_stack_values). -/
def runPush (m : Machine) : List Nat → Machine
  | [] => m
  | r :: rs => runPush (executeOpcode m (.PushRegister r)) rs

/-- Modelled from the spec: execute a `PopRegister` into each target
register in the list, in order, collecting the Word each pop reads back
from the stack (the value it writes into its target register). -/
def runPops (m : Machine) : List Nat → Machine × List Nat
  | [] => (m, [])
  | t :: ts =>
      ((runPops (executeOpcode m (.PopRegister t)) ts).1,
        read_data m.mem (m.regs STACK_POINTER - 4) ::
          (runPops (executeOpcode m (.PopRegister t)) ts).2)

theorem executeOpcode_push_regs_sp (m : Machine) (r : Nat) :
    (executeOpcode m (.PushRegister r)).regs STACK_POINTER
      = (m.regs STACK_POINTER + 4) % 2 ^ 32 := by
  simp only [executeOpcode]
  rw [regs_advanceIP_ne _ _ (by decide), regs_setReg_self]

theorem executeOpcode_push_regs_ne (m : Machine) (r x : Nat)
    (hx1 : x ≠ STACK_POINTER) (hx2 : x ≠ INSTRUCTION_POINTER) :
    (executeOpcode m (.PushRegister r)).regs x = m.regs x := by
  simp only [executeOpcode]
  rw [regs_advanceIP_ne _ _ hx2, regs_setReg_ne _ _ _ _ hx1, regs_write_data]

theorem executeOpcode_push_mem (m : Machine) (r : Nat) :
    (executeOpcode m (.PushRegister r)).mem
      = write_data_bytes m.mem (m.regs STACK_POINTER) (m.regs r) := rfl

theorem executeOpcode_pop_regs_sp (m : Machine) (t : Nat) (ht : t ≠ STACK_POINTER) :
    (executeOpcode m (.PopRegister t)).regs STACK_POINTER
      = (m.regs STACK_POINTER - 4) % 2 ^ 32 := by
  simp only [executeOpcode]
  rw [regs_advanceIP_ne _ _ (by decide), regs_setReg_ne _ _ _ _ (Ne.symm ht), regs_setReg_self]

theorem executeOpcode_pop_mem (m : Machine) (t : Nat) :
    (executeOpcode m (.PopRegister t)).mem = m.mem := rfl

theorem getD_mem_of_lt : ∀ (l : List Nat) (i : Nat), i < l.length → l.getD i 0 ∈ l
  | [], i, h => absurd (by simpa using h : i < 0) (Nat.not_lt_zero i)
  | a :: l, 0, _ => List.mem_cons_self a l
  | a :: l, i + 1, h => List.mem_cons_of_mem a (getD_mem_of_lt l i (by simpa using h))

theorem map_range_getD (g : Nat → Nat) : ∀ (l : List Nat),
    l.map g = (List.range l.length).map fun i => g (l.getD i 0)
  | [] => rfl
  | a :: l => by
      simp only [List.map_cons, List.length_cons, List.range_succ_eq_map, List.map_map,
        Function.comp_def, Nat.succ_eq_add_one, List.getD_cons_zero, List.getD_cons_succ]
      rw [← map_range_getD g l]

theorem runPush_spec (rs : List Nat) : ∀ (m : Machine),
    (∀ r ∈ rs, IsGeneralRegister r) →
    m.regs STACK_POINTER + 4 * rs.length < 2 ^ 32 →
    (runPush m rs).regs STACK_POINTER = m.regs STACK_POINTER + 4 * rs.length ∧
    (∀ x, x ≠ STACK_POINTER → x ≠ INSTRUCTION_POINTER →
      (runPush m rs).regs x = m.regs x) ∧
    (∀ a, a + 4 ≤ m.regs STACK_POINTER →
      read_data (runPush m rs).mem a = read_data m.mem a) ∧
    (∀ i, i < rs.length →
      read_data (runPush m rs).mem (m.regs STACK_POINTER + 4 * i)
        = m.regs (rs.getD i 0) % 2 ^ 32) := by
  induction rs with
  | nil =>
    intro m _ _
    exact ⟨by simp [runPush], fun x _ _ => rfl, fun a _ => rfl, fun i hi => by simp at hi⟩
  | cons r rs ih =>
    intro m hg hsp
    have hlen : (r :: rs).length = rs.length + 1 := by simp
    have hsp4 : m.regs STACK_POINTER + 4 < 2 ^ 32 := by omega
    have hm1sp : (executeOpcode m (.PushRegister r)).regs STACK_POINTER
        = m.regs STACK_POINTER + 4 := by
      rw [executeOpcode_push_regs_sp, Nat.mod_eq_of_lt hsp4]
    have hrun : runPush m (r :: rs) = runPush (executeOpcode m (.PushRegister r)) rs := rfl
    obtain ⟨ih1, ih2, ih3, ih4⟩ := ih (executeOpcode m (.PushRegister r))
      (fun x hx => hg x (List.mem_cons_of_mem r hx))
      (by rw [hm1sp]; omega)
    refine ⟨?_, ?_, ?_, ?_⟩
    · rw [hrun, ih1, hm1sp]
      omega
    · intro x hx1 hx2
      rw [hrun, ih2 x hx1 hx2, executeOpcode_push_regs_ne m r x hx1 hx2]
    · intro a ha
      rw [hrun, ih3 a (by omega), executeOpcode_push_mem,
        read_data_write_data_bytes_out _ _ _ _ (by omega)]
    · intro i hi
      match i, hi with
      | 0, _ =>
        have h0 : m.regs STACK_POINTER + 4 * 0 = m.regs STACK_POINTER := by omega
        rw [hrun, h0, ih3 (m.regs STACK_POINTER) (by omega), executeOpcode_push_mem,
          read_data_write_data_bytes_self, List.getD_cons_zero]
      | i + 1, hi =>
        have hgi : IsGeneralRegister (rs.getD i 0) :=
          hg _ (List.mem_cons_of_mem r (getD_mem_of_lt rs i (by omega)))
        have haddr : m.regs STACK_POINTER + 4 * (i + 1)
            = (executeOpcode m (.PushRegister r)).regs STACK_POINTER + 4 * i := by
          rw [hm1sp]
          omega
        rw [hrun, haddr, ih4 i (by omega),
          executeOpcode_push_regs_ne m r _ hgi.2.2.1 hgi.2.1, List.getD_cons_succ]

theorem runPops_spec (ts : List Nat) : ∀ (m : Machine) (s : Nat),
    (∀ t ∈ ts, IsGeneralRegister t) →
    m.regs STACK_POINTER = s + 4 * ts.length →
    s + 4 * ts.length < 2 ^ 32 →
    (runPops m ts).1.regs STACK_POINTER = s ∧
    (runPops m ts).2 = (List.range ts.length).reverse.map
      (fun i => read_data m.mem (s + 4 * i)) := by
  induction ts with
  | nil =>
    intro m s _ hsp _
    refine ⟨?_, rfl⟩
    show m.regs STACK_POINTER = s
    simpa using hsp
  | cons t ts ih =>
    intro m s hg hsp hlt
    have hlen : (t :: ts).length = ts.length + 1 := by simp
    have hgt : IsGeneralRegister t := hg t (List.mem_cons_self t ts)
    have hm1sp : (executeOpcode m (.PopRegister t)).regs STACK_POINTER
        = s + 4 * ts.length := by
      rw [executeOpcode_pop_regs_sp m t hgt.2.2.1, hsp]
      omega
    obtain ⟨ih1, ih2⟩ := ih (executeOpcode m (.PopRegister t)) s
      (fun x hx => hg x (List.mem_cons_of_mem t hx)) hm1sp (by omega)
    have hrun1 : (runPops m (t :: ts)).1
        = (runPops (executeOpcode m (.PopRegister t)) ts).1 := rfl
    have hrun2 : (runPops m (t :: ts)).2
        = read_data m.mem (m.regs STACK_POINTER - 4)
            :: (runPops (executeOpcode m (.PopRegister t)) ts).2 := rfl
    have hhead : m.regs STACK_POINTER - 4 = s + 4 * ts.length := by omega
    refine ⟨by rw [hrun1]; exact ih1, ?_⟩
    rw [hrun2, ih2, executeOpcode_pop_mem, hhead, hlen, List.range_succ,
      List.reverse_append]
    simp only [List.reverse_cons, List.reverse_nil, List.nil_append,
      List.singleton_append, List.map_cons]

/-- C9: pushing the values of a sequence of general registers in order and
then popping the same number of times into any general registers yields the
pushed values back in reverse order and restores STACK_POINTER to
STACK_START; moreover every single push advances the stack pointer by 4
(wrapping) and stores the pushed Word at the previous stack-pointer
address. -/
theorem c9_stack_roundtrip (m : Machine) (rs ts : List Nat)
    (hsp : m.regs STACK_POINTER = STACK_START)
    (hrs : ∀ r ∈ rs, IsGeneralRegister r ∧ m.regs r < 2 ^ 32)
    (hts : ∀ t ∈ ts, IsGeneralRegister t)
    (hlen : ts.length = rs.length)
    (hcap : 4 * rs.length ≤ STACK_SIZE) :
    ((runPops (runPush m rs) ts).2 = (rs.map m.regs).reverse ∧
      (runPops (runPush m rs) ts).1.regs STACK_POINTER = STACK_START) ∧
    ∀ (m' : Machine) (r : Nat),
      (executeOpcode m' (.PushRegister r)).regs STACK_POINTER
          = (m'.regs STACK_POINTER + 4) % 2 ^ 32 ∧
      read_data (executeOpcode m' (.PushRegister r)).mem (m'.regs STACK_POINTER)
          = m'.regs r % 2 ^ 32 := by
  have cS : STACK_START = 4096 := rfl
  have cZ : STACK_SIZE = 4096 := rfl
  have hsp32 : m.regs STACK_POINTER + 4 * rs.length < 2 ^ 32 := by
    rw [hsp]
    omega
  obtain ⟨hp1, hp2, hp3, hp4⟩ := runPush_spec rs m (fun r hr => (hrs r hr).1) hsp32
  have hM : (runPush m rs).regs STACK_POINTER = STACK_START + 4 * ts.length := by
    rw [hp1, hsp, hlen]
  obtain ⟨hq1, hq2⟩ := runPops_spec ts (runPush m rs) STACK_START hts hM (by omega)
  refine ⟨⟨?_, hq1⟩, ?_⟩
  · rw [hq2]
    have hval : ∀ i ∈ (List.range ts.length).reverse,
        read_data (runPush m rs).mem (STACK_START + 4 * i) = m.regs (rs.getD i 0) := by
      intro i hi
      have hilt : i < rs.length := by
        rw [← hlen]
        exact List.mem_range.mp (List.mem_reverse.mp hi)
      have hp := hp4 i hilt
      rw [hsp] at hp
      rw [hp, Nat.mod_eq_of_lt (hrs _ (getD_mem_of_lt rs i hilt)).2]
    rw [List.map_congr_left hval, hlen, List.map_reverse, ← map_range_getD m.regs rs]
  · intro m' r
    exact ⟨executeOpcode_push_regs_sp m' r,
      by rw [executeOpcode_push_mem, read_data_write_data_bytes_self]⟩

/-- The starting machine for the stack round trip: registers 1, 2, 3 hold
10, 20, 30; the stack pointer is at STACK_START. -/
def stackMachine : Machine :=
  setReg (setReg (setReg Machine.new 1 10) 2 20) 3 30

/-- C9, witness: pushing registers 1, 2, 3 (holding 10, 20, 30) and then
popping three times into registers 7, 8, 9 yields the values 30, 20, 10 in
that order and leaves STACK_POINTER back at STACK_START. -/
theorem c9_stack_roundtrip_witness :
    stackMachine.regs STACK_POINTER = STACK_START ∧
    (runPops (runPush stackMachine [1, 2, 3]) [7, 8, 9]).2 = [30, 20, 10] ∧
    (runPops (runPush stackMachine [1, 2, 3]) [7, 8, 9]).1.regs STACK_POINTER
      = STACK_START := by
  have h := c9_stack_roundtrip stackMachine [1, 2, 3] [7, 8, 9] (by decide)
    (by decide) (by decide) (by decide) (by decide)
  refine ⟨by decide, ?_, h.1.2⟩
  rw [h.1.1]
  decide

end Backseat
